import Mathlib

/-!
Shallow embedding of the kongctl `apply` reconciliation pipeline.

The definitions below are translated from the Go sources of the repository:
  * `apply.go` (the `applyCmd.RunE` pipeline, `sliceSetEqual`,
    `mapStringSliceEqual`, the shorthand expansion and the executor loops),
  * `internal/cli/route.go` (`diffSlice`, `toUpper`, `defaultRouteName`),
  * `internal/kong/service.go`, `internal/kong/route.go`,
    `internal/kong/upstream.go`, `internal/kong/target.go` (the admin client:
    `GetService`, `CreateOrUpdateService`, `CreateOrUpdateServiceViaUpstream`,
    `UpdateServiceExtras`, `CreateOrUpdateRoute`, `CreateOrUpdateUpstream`,
    `EnsureTarget`, `ListTargets`).

Go `int` is modelled as `Int`, Go strings as `String` (the code only
case-folds ASCII method names and protocol literals).  The remote control
plane is modelled as an explicit `RemoteState`; every remote call is recorded
as an `Ev` event so that temporal claims (which calls a run issues, and in
which order) become statements about the event trace.
-/

/-- Go `sliceSetEqual` (apply.go): builds a count map of `a`, then walks `b`
decrementing counts, returning `false` on an underflow, and finally checks
that no count is left over.  With the length guard the walk underflows exactly
when some element occurs more often in `b` than in `a`, and the leftover check
can then never fire; the loop is rendered here by that count comparison. -/
def sliceSetEqual (a b : List String) : Bool :=
  a.length == b.length && b.all (fun x => decide (b.count x ≤ a.count x))

/-- Go `mapStringSliceEqual` (apply.go): same length and every key of `a`
present in `b` with `sliceSetEqual` values.  Go maps have unique keys; header
maps are modelled as association lists with unique keys. -/
def lookupHdr (m : List (String × List String)) (k : String) : Option (List String) :=
  (m.find? (fun p => p.1 == k)).map (fun p => p.2)

def mapStringSliceEqual (a b : List (String × List String)) : Bool :=
  a.length == b.length &&
    a.all (fun p =>
      match lookupHdr b p.1 with
      | none => false
      | some vb => sliceSetEqual p.2 vb)

/-- ASCII case folding on whole strings (Go `strings.ToUpper` and
`strings.ToLower`; the code only folds method names and `path_handling`
literals, which are ASCII). -/
def upperStr (s : String) : String := String.mk (s.data.map Char.toUpper)

def lowerStr (s : String) : String := String.mk (s.data.map Char.toLower)

/-- Go `strings.TrimSpace`. -/
def trimStr (s : String) : String :=
  String.mk (((s.data.dropWhile Char.isWhitespace).reverse.dropWhile
    Char.isWhitespace).reverse)

/-- Go `toUpper` (route.go): upper-case every element. -/
def toUpper (xs : List String) : List String := xs.map upperStr

/-- Lexicographic string order (Go compares byte-wise; on ASCII this is the
codepoint order used here). -/
def charListLe : List Char → List Char → Bool
  | [], _ => true
  | _ :: _, [] => false
  | c :: cs, d :: ds =>
    if c.toNat < d.toNat then true
    else if d.toNat < c.toNat then false
    else charListLe cs ds

def strLe (a b : String) : Bool := charListLe a.data b.data

/-- Insertion sort on strings, modelling Go `sort.Strings` (lexicographic). -/
def insertStr (x : String) : List String → List String
  | [] => [x]
  | y :: ys => if strLe x y then x :: y :: ys else y :: insertStr x ys

def sortStrings : List String → List String
  | [] => []
  | x :: xs => insertStr x (sortStrings xs)

/-- The deleted/added sets computed by Go `diffSlice` (route.go): both sides
are collapsed to key sets (Go `map[string]bool`), `del` is the keys of `cur`
missing from `want`, `add` the keys of `want` missing from `cur`, each sorted
by `sort.Strings`.  The coloured text rendering around these two lists is
presentation only and is not modelled. -/
def diffSliceParts (cur want : List String) : List String × List String :=
  (sortStrings ((cur.dedup).filter (fun x => !want.contains x)),
   sortStrings ((want.dedup).filter (fun x => !cur.contains x)))

/-- The character class of Go regexp `[^A-Za-z0-9]` used by
`defaultRouteName` (route.go). -/
def isWordChar (c : Char) : Bool := c.isAlpha || c.isDigit

/-- Go `nonWord.ReplaceAllString(p, "-")`: every maximal run of non-word
characters becomes a single dash.  The boolean tracks whether the previous
character belonged to a non-word run whose dash was already emitted. -/
def collapseAux : List Char → Bool → List Char
  | [], _ => []
  | c :: cs, inRun =>
    if isWordChar c then c :: collapseAux cs false
    else if inRun then collapseAux cs true
    else '-' :: collapseAux cs true

def collapseNonWord (s : List Char) : List Char := collapseAux s false

/-- The Go loops stripping leading and trailing `"-"` in `defaultRouteName`. -/
def trimDashes (s : List Char) : List Char :=
  ((s.dropWhile (fun c => c == '-')).reverse.dropWhile (fun c => c == '-')).reverse

/-- Go `defaultRouteName` (route.go): join the paths with dashes, collapse
non-word runs, trim dashes, upper-case and sort the methods (defaulting to
`ANY`), and glue `service-paths-methods` together. -/
def defaultRouteName (service : String) (paths methods : List String) : String :=
  let p := String.mk (trimDashes (collapseNonWord (String.intercalate "-" paths).data))
  let m := sortStrings (toUpper methods)
  let m := if m.isEmpty then ["ANY"] else m
  service ++ "-" ++ p ++ "-" ++ String.intercalate "+" m

/-- The weight normalisation `w := t.Weight; if w == 0 { w = 100 }` used in
every target loop of apply.go. -/
def normWeight (w : Int) : Int := if w == 0 then 100 else w

/-! ### Data model

The desired-state document (`applySpec` and friends in apply.go) and the
remote resources returned by the admin client (`kong.Service`, `kong.Route`,
`kong.Upstream`, `kong.Target`). -/

/-- Go `applyTarget`: `host:port` address plus weight. -/
structure ApplyTarget where
  target : String := ""
  weight : Int := 0
deriving DecidableEq, Repr, Inhabited

/-- Go `applyUpstream`. -/
structure ApplyUpstream where
  name : String := ""
  targets : List ApplyTarget := []
deriving DecidableEq, Repr, Inhabited

/-- Go `applyService`. -/
structure ApplyService where
  name : String := ""
  url : String := ""
  upstream : String := ""
  protocol : String := ""
  port : Int := 0
  path : String := ""
  retries : Int := 0
  connectTimeout : Int := 0
  readTimeout : Int := 0
  writeTimeout : Int := 0
  targets : List ApplyTarget := []
deriving DecidableEq, Repr, Inhabited

/-- Go `routeBackend`. -/
structure RouteBackend where
  protocol : String := ""
  port : Int := 0
  path : String := ""
  targets : List ApplyTarget := []
deriving DecidableEq, Repr, Inhabited

/-- Go `applyRoute`.  Header maps are association lists with unique keys. -/
structure ApplyRoute where
  name : String := ""
  service : String := ""
  hosts : List String := []
  paths : List String := []
  methods : List String := []
  stripPath : Option Bool := none
  pathHandling : String := ""
  protocols : List String := []
  preserveHost : Option Bool := none
  regexPriority : Int := 0
  httpsRedirectStatusCode : Int := 0
  requestBuffering : Option Bool := none
  responseBuffering : Option Bool := none
  headers : List (String × List String) := []
  snis : List String := []
  tags : List String := []
  serviceName : String := ""
  upstreamName : String := ""
  backend : RouteBackend := {}
deriving DecidableEq, Repr, Inhabited

/-- Go `applySpec`: the canonical desired-state document. -/
structure ApplySpec where
  upstreams : List ApplyUpstream := []
  services : List ApplyService := []
  routes : List ApplyRoute := []
deriving DecidableEq, Repr, Inhabited

/-- Remote `kong.Service`.  The collaborator assigns opaque ids; the model
uses the (unique) name as the id of a created service.  For a service
created through its `url` field the remote decomposition of that url into
protocol/host/port/path is collaborator behaviour outside this repository
and is not modelled: the posted url is stored verbatim. -/
structure KongService where
  id : String := ""
  name : String := ""
  protocol : String := ""
  host : String := ""
  port : Int := 0
  path : String := ""
  retries : Int := 0
  connectTimeout : Int := 0
  readTimeout : Int := 0
  writeTimeout : Int := 0
  url : String := ""
deriving DecidableEq, Repr, Inhabited

/-- Remote `kong.Route`; `serviceName`/`serviceId` model the nested
`Service struct { ID, Name }` reference. -/
structure KongRoute where
  name : String := ""
  hosts : List String := []
  paths : List String := []
  methods : List String := []
  protocols : List String := []
  preserveHost : Option Bool := none
  regexPriority : Int := 0
  httpsRedirectStatusCode : Int := 0
  requestBuffering : Option Bool := none
  responseBuffering : Option Bool := none
  headers : List (String × List String) := []
  snis : List String := []
  tags : List String := []
  pathHandling : String := ""
  stripPath : Option Bool := none
  serviceName : String := ""
  serviceId : String := ""
deriving DecidableEq, Repr, Inhabited

/-- The remote control plane's resource set.  Targets are kept in creation
order as `(upstream, address, weight)` triples: `ListTargets` returns them in
that order and the apply loops stop at the first matching address. -/
structure RemoteState where
  upstreams : List String := []
  services : List KongService := []
  routes : List KongRoute := []
  targets : List (String × String × Int) := []
deriving DecidableEq, Repr, Inhabited

/-! ### Pure diff and expansion functions -/

/-- The service protocol/port defaulting of apply.go (`proto := s.Protocol;
if proto == "" { proto = "http" }` and the port defaulting by protocol). -/
def svcProto (s : ApplyService) : String := if s.protocol == "" then "http" else s.protocol

def svcPort (s : ApplyService) : Int :=
  if s.port == 0 then (if svcProto s == "https" then 443 else 80) else s.port

/-- The same defaulting applied to a shorthand route's backend. -/
def backendProto (b : RouteBackend) : String :=
  if b.protocol == "" then "http" else b.protocol

def backendPort (b : RouteBackend) : Int :=
  if b.port == 0 then (if backendProto b == "https" then 443 else 80) else b.port

/-- `ph := strings.ToLower(strings.TrimSpace(r.PathHandling))` of apply.go. -/
def phNorm (r : ApplyRoute) : String := lowerStr (trimStr r.pathHandling)

/-- Service comparison in upstream mode (apply.go): direct inequality on
host/protocol/port/path, shared by the dry-run classification and the
executor's `changed` computation. -/
def svcCoreChanged (cur : KongService) (upstream proto : String) (port : Int)
    (path : String) : Bool :=
  cur.host != upstream || cur.protocol != proto || cur.port != port || cur.path != path

/-- The extras comparison (apply.go): each optional field is compared only
when the desired value is positive. -/
def svcExtrasChanged (cur : KongService) (s : ApplyService) : Bool :=
  (decide (0 < s.retries) && cur.retries != s.retries) ||
  (decide (0 < s.connectTimeout) && cur.connectTimeout != s.connectTimeout) ||
  (decide (0 < s.readTimeout) && cur.readTimeout != s.readTimeout) ||
  (decide (0 < s.writeTimeout) && cur.writeTimeout != s.writeTimeout)

/-- Go `reconstructURL` (service command file): rebuild a `url` from the
protocol/host/port/path of a fetched service, eliding default ports. -/
def reconstructURL (s : KongService) : String :=
  if s.protocol == "" || s.host == "" then ""
  else
    let needPort := (s.protocol == "http" && s.port != 80) ||
                    (s.protocol == "https" && s.port != 443)
    let base := s.protocol ++ "://" ++ s.host
    let base := if needPort && s.port != 0 then base ++ ":" ++ toString s.port else base
    if s.path != "" then
      if s.path.front == '/' then base ++ s.path else base ++ "/" ++ s.path
    else base

/-- The desired `kong.Route` assembled by apply.go before syncing: methods
upper-cased, `path_handling` already normalised to `ph`, unset optional
fields left at their zero values, and `strip_path` defaulted to `true` when
the document does not declare it. -/
def mkDesired (r : ApplyRoute) (name ph : String) : KongRoute :=
  { name := name
    hosts := r.hosts
    paths := r.paths
    methods := toUpper r.methods
    pathHandling := ph
    protocols := if 0 < r.protocols.length then r.protocols else []
    preserveHost := r.preserveHost
    regexPriority := if r.regexPriority != 0 then r.regexPriority else 0
    httpsRedirectStatusCode :=
      if r.httpsRedirectStatusCode != 0 then r.httpsRedirectStatusCode else 0
    requestBuffering := r.requestBuffering
    responseBuffering := r.responseBuffering
    headers := if 0 < r.headers.length then r.headers else []
    snis := if 0 < r.snis.length then r.snis else []
    tags := if 0 < r.tags.length then r.tags else []
    stripPath := some (match r.stripPath with | some b => b | none => true)
    serviceName := r.service
    serviceId := "" }

/-- The route `changed` computation of apply.go, shared verbatim by the
dry-run classification and the executor: collection fields through
`sliceSetEqual`, guarded scalars only when the document declares them,
`strip_path` and the service reference always compared. -/
def routeChanged (r : ApplyRoute) (cur desired : KongRoute) : Bool :=
  !sliceSetEqual cur.hosts desired.hosts ||
  !sliceSetEqual cur.paths desired.paths ||
  !sliceSetEqual (toUpper cur.methods) desired.methods ||
  (decide (0 < r.protocols.length) && !sliceSetEqual cur.protocols desired.protocols) ||
  (lowerStr desired.pathHandling != "" &&
    lowerStr cur.pathHandling != lowerStr desired.pathHandling) ||
  (r.preserveHost.isSome && (cur.preserveHost.getD false) != (desired.preserveHost.getD false)) ||
  (r.regexPriority != 0 && cur.regexPriority != desired.regexPriority) ||
  (r.httpsRedirectStatusCode != 0 &&
    cur.httpsRedirectStatusCode != desired.httpsRedirectStatusCode) ||
  (r.requestBuffering.isSome &&
    (cur.requestBuffering.getD false) != (desired.requestBuffering.getD false)) ||
  (r.responseBuffering.isSome &&
    (cur.responseBuffering.getD false) != (desired.responseBuffering.getD false)) ||
  (decide (0 < r.headers.length) && !mapStringSliceEqual cur.headers desired.headers) ||
  (decide (0 < r.snis.length) && !sliceSetEqual cur.snis desired.snis) ||
  (decide (0 < r.tags.length) && !sliceSetEqual cur.tags desired.tags) ||
  (cur.stripPath.getD false) != (desired.stripPath.getD false) ||
  (cur.serviceName != desired.serviceName && desired.serviceName != "")

/-! ### Remote calls and the event trace

`applyCmd.RunE` threads a remote state through a strictly sequential sequence
of admin-client calls.  Each step is a function `RemoteState → StepRes`
returning either the updated state plus the events it produced, or an error
message plus the events produced before the failure (the Go code returns the
error from `RunE`, abandoning the rest of the plan). -/

/-- One observable event of a run: a remote call (lookup, create or patch),
a recorded skip notice (`PrintWarn` in the Go code), or a dry-run plan item
(`aplan.Change`; the advisory diff text of a `Change` is presentation only
and is not modelled). -/
inductive Ev where
  | getUpstream (name : String)
  | getService (name : String)
  | getRoute (name : String)
  | listTargets (up : String)
  | createUpstream (name : String)
  | createService (svc : KongService)
  | patchServiceUpstream (name upstream proto : String) (port : Int) (path : String)
  | patchServiceUrl (name url : String)
  | patchServiceExtras (name : String) (retries connectTimeout readTimeout writeTimeout : Int)
  | createRoute (rt : KongRoute)
  | patchRoute (rt : KongRoute)
  | addTarget (up target : String) (weight : Int)
  | warnSkip (kind name : String)
  | planItem (kind name action : String)
deriving DecidableEq, Repr

/-- The key of the resource a mutating event writes to; `none` for lookups,
skip notices and plan items.  An event is a mutating remote call exactly when
its key is `some`. -/
inductive RKey where
  | up (name : String)
  | svc (name : String)
  | rt (name : String)
  | tgt (upName addr : String)
deriving DecidableEq, Repr

def evKey : Ev → Option RKey
  | .createUpstream n => some (.up n)
  | .createService s => some (.svc s.name)
  | .patchServiceUpstream n _ _ _ _ => some (.svc n)
  | .patchServiceUrl n _ => some (.svc n)
  | .patchServiceExtras n _ _ _ _ => some (.svc n)
  | .createRoute r => some (.rt r.name)
  | .patchRoute r => some (.rt r.name)
  | .addTarget u a _ => some (.tgt u a)
  | _ => none

/-- Whether an event is a create call (POST). -/
def isCreateEv : Ev → Bool
  | .createUpstream _ => true
  | .createService _ => true
  | .createRoute _ => true
  | .addTarget _ _ _ => true
  | _ => false

/-- Whether an event is a patch call (PATCH). -/
def isPatchEv : Ev → Bool
  | .patchServiceUpstream _ _ _ _ _ => true
  | .patchServiceUrl _ _ => true
  | .patchServiceExtras _ _ _ _ _ => true
  | .patchRoute _ => true
  | _ => false

/-- Presence of a resource in the remote state, by kind and name. -/
def present (st : RemoteState) (k : RKey) : Bool :=
  match k with
  | .up n => st.upstreams.contains n
  | .svc n => st.services.any (fun s => s.name == n)
  | .rt n => st.routes.any (fun r => r.name == n)
  | .tgt u a => st.targets.any (fun x => x.1 == u && x.2.1 == a)

/-- Models the client returning a fetch failure (any non-2xx, non-404
response, see `classifyFetchStatus`) for a resource of the given kind/name;
`tgt` is keyed by the upstream name whose target list is fetched. -/
structure FailSet where
  up : String → Bool
  svc : String → Bool
  rt : String → Bool
  tgt : String → Bool

def noFail : FailSet := ⟨fun _ => false, fun _ => false, fun _ => false, fun _ => false⟩

abbrev StepRes := Except (String × List Ev) (RemoteState × List Ev)

abbrev Step := RemoteState → StepRes

/-- Sequencing of two pipeline steps: the second runs on the first's output
state; traces are concatenated, and an error abandons the remainder. -/
def stepSeq (f g : Step) : Step := fun st =>
  match f st with
  | .error p => .error p
  | .ok (st1, tr1) =>
    match g st1 with
    | .error (e, tr2) => .error (e, tr1 ++ tr2)
    | .ok (st2, tr2) => .ok (st2, tr1 ++ tr2)

/-- Prefix a step's trace with already-produced events. -/
def withEvs (evs : List Ev) (f : Step) : Step := fun st =>
  match f st with
  | .error (e, tr) => .error (e, evs ++ tr)
  | .ok (st1, tr) => .ok (st1, evs ++ tr)

/-! ### State update primitives (the collaborator's effect) -/

def findService (st : RemoteState) (n : String) : Option KongService :=
  st.services.find? (fun s => s.name == n)

def findRoute (st : RemoteState) (n : String) : Option KongRoute :=
  st.routes.find? (fun r => r.name == n)

/-- `ListTargets` result for one upstream, in creation order. -/
def targetsOf (st : RemoteState) (up : String) : List (String × Int) :=
  (st.targets.filter (fun x => x.1 == up)).map (fun x => x.2)

def addUpstreamSt (st : RemoteState) (n : String) : RemoteState :=
  { st with upstreams := st.upstreams ++ [n] }

def addServiceSt (st : RemoteState) (s : KongService) : RemoteState :=
  { st with services := st.services ++ [s] }

def patchSvcUpSt (st : RemoteState) (n upName proto : String) (port : Int)
    (path : String) : RemoteState :=
  { st with services := st.services.map (fun s =>
      if s.name == n then
        { s with protocol := proto, host := upName, port := port, path := path }
      else s) }

def patchSvcUrlSt (st : RemoteState) (n url : String) : RemoteState :=
  { st with services := st.services.map (fun s =>
      if s.name == n then { s with url := url } else s) }

/-- `UpdateServiceExtras` patches only the fields it put into the payload. -/
def patchSvcExtrasSt (st : RemoteState) (n : String)
    (retries connectTimeout readTimeout writeTimeout : Int) : RemoteState :=
  { st with services := st.services.map (fun s =>
      if s.name == n then
        { s with
          retries := if 0 < retries then retries else s.retries
          connectTimeout := if 0 < connectTimeout then connectTimeout else s.connectTimeout
          readTimeout := if 0 < readTimeout then readTimeout else s.readTimeout
          writeTimeout := if 0 < writeTimeout then writeTimeout else s.writeTimeout }
      else s) }

def addRouteSt (st : RemoteState) (r : KongRoute) : RemoteState :=
  { st with routes := st.routes ++ [r] }

/-- The effect of the `CreateOrUpdateRoute` PATCH payload on the stored
route: hosts/paths/methods always sent, optional fields only when the desired
route declares them. -/
def applyRoutePatch (cur desired : KongRoute) : KongRoute :=
  { cur with
    hosts := desired.hosts
    paths := desired.paths
    methods := desired.methods
    protocols := if 0 < desired.protocols.length then desired.protocols else cur.protocols
    preserveHost := if desired.preserveHost.isSome then desired.preserveHost else cur.preserveHost
    regexPriority := if desired.regexPriority != 0 then desired.regexPriority else cur.regexPriority
    httpsRedirectStatusCode :=
      if desired.httpsRedirectStatusCode != 0 then desired.httpsRedirectStatusCode
      else cur.httpsRedirectStatusCode
    requestBuffering :=
      if desired.requestBuffering.isSome then desired.requestBuffering else cur.requestBuffering
    responseBuffering :=
      if desired.responseBuffering.isSome then desired.responseBuffering else cur.responseBuffering
    headers := if 0 < desired.headers.length then desired.headers else cur.headers
    snis := if 0 < desired.snis.length then desired.snis else cur.snis
    tags := if 0 < desired.tags.length then desired.tags else cur.tags
    pathHandling := if desired.pathHandling != "" then desired.pathHandling else cur.pathHandling
    stripPath := if desired.stripPath.isSome then desired.stripPath else cur.stripPath
    serviceName := if desired.serviceId != "" then desired.serviceName else cur.serviceName
    serviceId := if desired.serviceId != "" then desired.serviceId else cur.serviceId }

def patchRouteSt (st : RemoteState) (n : String) (patched : KongRoute) : RemoteState :=
  { st with routes := st.routes.map (fun r => if r.name == n then patched else r) }

def addTargetSt (st : RemoteState) (up addr : String) (w : Int) : RemoteState :=
  { st with targets := st.targets ++ [(up, addr, w)] }

/-! ### Admin-client operations (internal/kong)

Each `CreateOrUpdate*` helper performs its own get-by-name before mutating;
those inner lookups are recorded as events too, so the trace matches the HTTP
calls of the Go client one for one.  Mutating calls (POST/PATCH) are assumed
to succeed; the `FailSet` oracle makes lookups fail, which is the fetch-error
behaviour the claims are about. -/

/-- `CreateOrUpdateUpstream` (upstream client file): get by name; create when
absent; when present, return without any further call. -/
def createOrUpdateUpstream (fl : FailSet) (n : String) : Step := fun st =>
  if n == "" then .error ("upstream name must not be empty", [])
  else if fl.up n then .error ("HTTP 500", [Ev.getUpstream n])
  else if st.upstreams.contains n then .ok (st, [Ev.getUpstream n])
  else .ok (addUpstreamSt st n, [Ev.getUpstream n, Ev.createUpstream n])

/-- `EnsureTarget` (target client file): list the upstream's targets; if some
entry matches the address with equal weight (or the requested weight is 0) do
nothing, otherwise POST a new target record. -/
def ensureTarget (fl : FailSet) (up addr : String) (w : Int) : Step := fun st =>
  if fl.tgt up then .error ("HTTP 500", [Ev.listTargets up])
  else if (targetsOf st up).any (fun p => p.1 == addr && (p.2 == w || w == 0)) then
    .ok (st, [Ev.listTargets up])
  else if up == "" || addr == "" then
    .error ("upstream and target required", [Ev.listTargets up])
  else .ok (addTargetSt st up addr w, [Ev.listTargets up, Ev.addTarget up addr w])

/-- `CreateOrUpdateService` (service client file), url mode: get by name;
POST `Service{Name, URL}` when absent, otherwise PATCH the url. -/
def createOrUpdateService (fl : FailSet) (n url : String) : Step := fun st =>
  if n == "" || url == "" then .error ("name and url must not be empty", [])
  else if fl.svc n then .error ("HTTP 500", [Ev.getService n])
  else
    match findService st n with
    | none =>
      let s : KongService := { id := n, name := n, url := url }
      .ok (addServiceSt st s, [Ev.getService n, Ev.createService s])
    | some cur =>
      .ok (patchSvcUrlSt st cur.name url, [Ev.getService n, Ev.patchServiceUrl cur.name url])

/-- `CreateOrUpdateServiceViaUpstream` (service client file): default the
protocol to http and the port by protocol, get by name, then POST the full
service or PATCH protocol/host/port/path. -/
def createOrUpdateServiceViaUpstream (fl : FailSet) (n upName proto0 : String)
    (port0 : Int) (path : String) : Step := fun st =>
  if n == "" || upName == "" then .error ("name and upstreamName must not be empty", [])
  else
    let proto := if proto0 == "" then "http" else proto0
    let port := if port0 == 0 then (if proto == "https" then 443 else 80) else port0
    if fl.svc n then .error ("HTTP 500", [Ev.getService n])
    else
      match findService st n with
      | none =>
        let s : KongService :=
          { id := n, name := n, protocol := proto, host := upName, port := port, path := path }
        .ok (addServiceSt st s, [Ev.getService n, Ev.createService s])
      | some _ =>
        .ok (patchSvcUpSt st n upName proto port path,
             [Ev.getService n, Ev.patchServiceUpstream n upName proto port path])

/-- `UpdateServiceExtras` (service client file): PATCH with only the positive
fields; no call at all when the payload would be empty. -/
def updateServiceExtras (_fl : FailSet) (n : String)
    (retries connectTimeout readTimeout writeTimeout : Int) : Step := fun st =>
  if decide (retries ≤ 0) && decide (connectTimeout ≤ 0) &&
     decide (readTimeout ≤ 0) && decide (writeTimeout ≤ 0) then .ok (st, [])
  else
    .ok (patchSvcExtrasSt st n retries connectTimeout readTimeout writeTimeout,
         [Ev.patchServiceExtras n retries connectTimeout readTimeout writeTimeout])

/-- The part of `CreateOrUpdateRoute` after the service id is resolved: get
the route by name and POST it or PATCH the declared fields. -/
def createOrUpdateRouteResolved (fl : FailSet) (desired : KongRoute) : Step := fun st =>
  if fl.rt desired.name then .error ("HTTP 500", [Ev.getRoute desired.name])
  else
    match findRoute st desired.name with
    | none => .ok (addRouteSt st desired, [Ev.getRoute desired.name, Ev.createRoute desired])
    | some cur =>
      .ok (patchRouteSt st cur.name (applyRoutePatch cur desired),
           [Ev.getRoute desired.name, Ev.patchRoute desired])

/-- `CreateOrUpdateRoute` (route client file): resolve the service reference
by name to an id (failing when the service does not exist remotely), then get
the route by name and POST it or PATCH the declared fields. -/
def createOrUpdateRoute (fl : FailSet) (desired : KongRoute) : Step := fun st =>
  if desired.name == "" then .error ("route requires a name", [])
  else if desired.serviceId == "" && desired.serviceName != "" then
    if fl.svc desired.serviceName then .error ("HTTP 500", [Ev.getService desired.serviceName])
    else
      match findService st desired.serviceName with
      | none =>
        .error ("referenced service does not exist: " ++ desired.serviceName,
                [Ev.getService desired.serviceName])
      | some svc =>
        withEvs [Ev.getService desired.serviceName]
          (createOrUpdateRouteResolved fl { desired with serviceId := svc.id }) st
  else if desired.serviceId == "" then .error ("route requires a service id or name", [])
  else createOrUpdateRouteResolved fl desired st

/-! ### The apply pipeline (`applyCmd.RunE`)

The `dr` flag is `--dry-run`, `ov` is `--overwrite`.  The `--diff` print
branches issue no remote calls and are not modelled. -/

/-- The ensure-upstream block, appearing identically for top-level upstreams,
for a service's upstream and for a shorthand route's derived upstream.
Dry-run: one lookup, whose failure is swallowed and planned as `create`.
Execute: a failed lookup aborts; a missing upstream is created; an existing
one is re-ensured only under `--overwrite`. -/
def ensureUpstreamBlock (dr ov : Bool) (fl : FailSet) (n : String) : Step := fun st =>
  if dr then
    if fl.up n then .ok (st, [Ev.getUpstream n, Ev.planItem "Upstream" n "create"])
    else
      let act := if st.upstreams.contains n then "none" else "create"
      .ok (st, [Ev.getUpstream n, Ev.planItem "Upstream" n act])
  else
    if fl.up n then .error ("HTTP 500", [Ev.getUpstream n])
    else if !(st.upstreams.contains n) then
      withEvs [Ev.getUpstream n] (createOrUpdateUpstream fl n) st
    else if ov then withEvs [Ev.getUpstream n] (createOrUpdateUpstream fl n) st
    else .ok (st, [Ev.getUpstream n])

/-- The per-target block, appearing identically in all three target loops.
Dry-run: one list call (failure swallowed, planned `create`); planned `none`
exactly when some entry matches address and normalised weight.  Execute: the
first entry matching the address decides existence and weight equality; a new
target is ensured when absent, a weight change is applied only under
`--overwrite` and otherwise recorded as a skip notice. -/
def targetBlock (dr ov : Bool) (fl : FailSet) (up : String) (t : ApplyTarget) : Step := fun st =>
  if dr then
    if fl.tgt up then
      .ok (st, [Ev.listTargets up, Ev.planItem "Target" (up ++ "/" ++ t.target) "create"])
    else
      .ok (st, [Ev.listTargets up,
        Ev.planItem "Target" (up ++ "/" ++ t.target)
          (if (targetsOf st up).any (fun p => p.1 == t.target && p.2 == normWeight t.weight)
           then "none" else "create")])
  else
    if fl.tgt up then .error ("HTTP 500", [Ev.listTargets up])
    else
      match (targetsOf st up).find? (fun p => p.1 == t.target) with
      | none => withEvs [Ev.listTargets up] (ensureTarget fl up t.target (normWeight t.weight)) st
      | some p =>
        if p.2 == normWeight t.weight || normWeight t.weight == 0 then
          .ok (st, [Ev.listTargets up])
        else if ov then
          withEvs [Ev.listTargets up] (ensureTarget fl up t.target (normWeight t.weight)) st
        else .ok (st, [Ev.listTargets up, Ev.warnSkip "Target" t.target])

def targetsLoop (dr ov : Bool) (fl : FailSet) (up : String) : List ApplyTarget → Step
  | [] => fun st => .ok (st, [])
  | t :: ts => stepSeq (targetBlock dr ov fl up t) (targetsLoop dr ov fl up ts)

/-- One `spec.Upstreams` entry: name validation, ensure the upstream, then
its targets. -/
def upstreamEntryBlock (dr ov : Bool) (fl : FailSet) (u : ApplyUpstream) : Step := fun st =>
  if u.name == "" then .error ("upstreams[].name must not be empty", [])
  else stepSeq (ensureUpstreamBlock dr ov fl u.name) (targetsLoop dr ov fl u.name u.targets) st

/-- The service sync of an upstream-bound `spec.Services` entry (after its
upstream and targets were ensured).  Dry-run classifies `create`/`none`/
`update` from the core and extras comparisons.  Execute: create plus an
extras patch when any extra is declared; when present, the core change and
the extras change are applied (or skipped) independently, each gated by
`--overwrite`. -/
def serviceSyncViaUpstream (dr ov : Bool) (fl : FailSet) (s : ApplyService) : Step := fun st =>
  if dr then
    if fl.svc s.name then .ok (st, [Ev.getService s.name, Ev.planItem "Service" s.name "create"])
    else
      match findService st s.name with
      | none => .ok (st, [Ev.getService s.name, Ev.planItem "Service" s.name "create"])
      | some cur =>
        .ok (st, [Ev.getService s.name,
          Ev.planItem "Service" s.name
            (if svcCoreChanged cur s.upstream (svcProto s) (svcPort s) s.path ||
                svcExtrasChanged cur s
             then "update" else "none")])
  else
    if fl.svc s.name then .error ("HTTP 500", [Ev.getService s.name])
    else
      match findService st s.name with
      | none =>
        withEvs [Ev.getService s.name]
          (stepSeq
            (createOrUpdateServiceViaUpstream fl s.name s.upstream (svcProto s) (svcPort s)
              s.path)
            (fun st2 =>
              if decide (0 < s.retries) || decide (0 < s.connectTimeout) ||
                 decide (0 < s.readTimeout) || decide (0 < s.writeTimeout) then
                updateServiceExtras fl s.name s.retries s.connectTimeout s.readTimeout
                  s.writeTimeout st2
              else .ok (st2, []))) st
      | some cur =>
        withEvs [Ev.getService s.name]
          (stepSeq
            (if svcCoreChanged cur s.upstream (svcProto s) (svcPort s) s.path then
              if ov then
                createOrUpdateServiceViaUpstream fl s.name s.upstream (svcProto s) (svcPort s)
                  s.path
              else fun st2 => .ok (st2, [Ev.warnSkip "Service" s.name])
             else fun st2 => .ok (st2, []))
            (if svcExtrasChanged cur s then
              if ov then
                updateServiceExtras fl s.name s.retries s.connectTimeout s.readTimeout
                  s.writeTimeout
              else fun st2 => .ok (st2, [Ev.warnSkip "ServiceExtras" s.name])
             else fun st2 => .ok (st2, []))) st

/-- An upstream-bound `spec.Services` entry: ensure the upstream, its
targets, then sync the service. -/
def serviceUpstreamBlock (dr ov : Bool) (fl : FailSet) (s : ApplyService) : Step :=
  stepSeq (ensureUpstreamBlock dr ov fl s.upstream)
    (stepSeq (targetsLoop dr ov fl s.upstream s.targets) (serviceSyncViaUpstream dr ov fl s))

/-- A url-mode `spec.Services` entry: compare the reconstructed url, with the
same extras handling as upstream mode. -/
def serviceUrlBlock (dr ov : Bool) (fl : FailSet) (s : ApplyService) : Step := fun st =>
  if s.url == "" then .error ("service requires url or upstream", [])
  else if dr then
    if fl.svc s.name then .ok (st, [Ev.getService s.name, Ev.planItem "Service" s.name "create"])
    else
      match findService st s.name with
      | none => .ok (st, [Ev.getService s.name, Ev.planItem "Service" s.name "create"])
      | some cur =>
        .ok (st, [Ev.getService s.name,
          Ev.planItem "Service" s.name
            (if reconstructURL cur != s.url || svcExtrasChanged cur s
             then "update" else "none")])
  else
    if fl.svc s.name then .error ("HTTP 500", [Ev.getService s.name])
    else
      match findService st s.name with
      | none =>
        withEvs [Ev.getService s.name]
          (stepSeq (createOrUpdateService fl s.name s.url)
            (fun st2 =>
              if decide (0 < s.retries) || decide (0 < s.connectTimeout) ||
                 decide (0 < s.readTimeout) || decide (0 < s.writeTimeout) then
                updateServiceExtras fl s.name s.retries s.connectTimeout s.readTimeout
                  s.writeTimeout st2
              else .ok (st2, []))) st
      | some cur =>
        withEvs [Ev.getService s.name]
          (stepSeq
            (if reconstructURL cur != s.url then
              if ov then createOrUpdateService fl s.name s.url
              else fun st2 => .ok (st2, [Ev.warnSkip "Service" s.name])
             else fun st2 => .ok (st2, []))
            (if svcExtrasChanged cur s then
              if ov then
                updateServiceExtras fl s.name s.retries s.connectTimeout s.readTimeout
                  s.writeTimeout
              else fun st2 => .ok (st2, [Ev.warnSkip "ServiceExtras" s.name])
             else fun st2 => .ok (st2, []))) st

/-- One `spec.Services` entry: name validation, then upstream or url mode. -/
def serviceBlock (dr ov : Bool) (fl : FailSet) (s : ApplyService) : Step := fun st =>
  if s.name == "" then .error ("services[].name must not be empty", [])
  else if s.upstream != "" then serviceUpstreamBlock dr ov fl s st
  else serviceUrlBlock dr ov fl s st

/-- The shorthand route's auto service sync (apply.go): like the
upstream-mode service sync but with the backend's protocol/port/path and no
extras handling. -/
def autoServiceSync (dr ov : Bool) (fl : FailSet) (svcName upName : String)
    (b : RouteBackend) : Step := fun st =>
  if dr then
    if fl.svc svcName then .ok (st, [Ev.getService svcName, Ev.planItem "Service" svcName "create"])
    else
      match findService st svcName with
      | none => .ok (st, [Ev.getService svcName, Ev.planItem "Service" svcName "create"])
      | some cur =>
        .ok (st, [Ev.getService svcName,
          Ev.planItem "Service" svcName
            (if svcCoreChanged cur upName (backendProto b) (backendPort b) b.path
             then "update" else "none")])
  else
    if fl.svc svcName then .error ("HTTP 500", [Ev.getService svcName])
    else
      match findService st svcName with
      | none =>
        withEvs [Ev.getService svcName]
          (createOrUpdateServiceViaUpstream fl svcName upName (backendProto b) (backendPort b)
            b.path) st
      | some cur =>
        if svcCoreChanged cur upName (backendProto b) (backendPort b) b.path then
          if ov then
            withEvs [Ev.getService svcName]
              (createOrUpdateServiceViaUpstream fl svcName upName (backendProto b)
                (backendPort b) b.path) st
          else .ok (st, [Ev.getService svcName, Ev.warnSkip "Service" svcName])
        else .ok (st, [Ev.getService svcName])

/-- The common route sync (apply.go): validate `path_handling`, assemble the
desired route, then classify (dry-run, lookup failure swallowed as `create`)
or execute (create when absent; when present and changed, patch under
`--overwrite` or record a skip notice). -/
def routeSync (dr ov : Bool) (fl : FailSet) (r : ApplyRoute) (name : String) : Step := fun st =>
  if phNorm r != "" && phNorm r != "v0" && phNorm r != "v1" then
    .error ("routes[].path_handling only supports v0 or v1", [])
  else
    if dr then
      if fl.rt name then .ok (st, [Ev.getRoute name, Ev.planItem "Route" name "create"])
      else
        match findRoute st name with
        | none => .ok (st, [Ev.getRoute name, Ev.planItem "Route" name "create"])
        | some cur =>
          .ok (st, [Ev.getRoute name,
            Ev.planItem "Route" name
              (if routeChanged r cur (mkDesired r name (phNorm r)) then "update" else "none")])
    else
      if fl.rt name then .error ("HTTP 500", [Ev.getRoute name])
      else
        match findRoute st name with
        | none =>
          withEvs [Ev.getRoute name] (createOrUpdateRoute fl (mkDesired r name (phNorm r))) st
        | some cur =>
          if routeChanged r cur (mkDesired r name (phNorm r)) then
            if ov then
              withEvs [Ev.getRoute name] (createOrUpdateRoute fl (mkDesired r name (phNorm r)))
                st
            else .ok (st, [Ev.getRoute name, Ev.warnSkip "Route" name])
          else .ok (st, [Ev.getRoute name])

/-- The effective route name (apply.go): defaulted from the service, paths
and methods when the document gives a service reference but no name. -/
def routeName (r : ApplyRoute) : String :=
  if r.name == "" && r.service != ""
  then defaultRouteName r.service r.paths r.methods else r.name

/-- The synthesized service name of a shorthand route:
`override ?? "<route>-service"`. -/
def autoSvcName (r : ApplyRoute) (name : String) : String :=
  if r.serviceName == "" then name ++ "-service" else r.serviceName

/-- The synthesized upstream name of a shorthand route:
`override ?? "<route>-upstream"`. -/
def autoUpName (r : ApplyRoute) (name : String) : String :=
  if r.upstreamName == "" then name ++ "-upstream" else r.upstreamName

/-- One `spec.Routes` entry.  A route without a service reference takes the
shorthand path: it must carry a name, the service/upstream names are derived
(or overridden), the upstream, targets and auto service are ensured, and the
route's service reference is rewritten to the synthesized service before the
common sync. -/
def routeBlock (dr ov : Bool) (fl : FailSet) (r : ApplyRoute) : Step := fun st =>
  if r.service == "" then
    if routeName r == "" then .error ("route has no name and no service; cannot derive", [])
    else
      stepSeq (ensureUpstreamBlock dr ov fl (autoUpName r (routeName r)))
        (stepSeq (targetsLoop dr ov fl (autoUpName r (routeName r)) r.backend.targets)
          (stepSeq (autoServiceSync dr ov fl (autoSvcName r (routeName r))
              (autoUpName r (routeName r)) r.backend)
            (routeSync dr ov fl { r with service := autoSvcName r (routeName r) }
              (routeName r)))) st
  else routeSync dr ov fl r (routeName r) st

def runUpstreams (dr ov : Bool) (fl : FailSet) : List ApplyUpstream → Step
  | [] => fun st => .ok (st, [])
  | u :: us => stepSeq (upstreamEntryBlock dr ov fl u) (runUpstreams dr ov fl us)

def runServices (dr ov : Bool) (fl : FailSet) : List ApplyService → Step
  | [] => fun st => .ok (st, [])
  | s :: ss => stepSeq (serviceBlock dr ov fl s) (runServices dr ov fl ss)

def runRoutes (dr ov : Bool) (fl : FailSet) : List ApplyRoute → Step
  | [] => fun st => .ok (st, [])
  | r :: rs => stepSeq (routeBlock dr ov fl r) (runRoutes dr ov fl rs)

/-- The event trace of a step result (also on the error path: the events
issued before the failure). -/
def stepTrace (res : StepRes) : List Ev :=
  match res with
  | .error (_, tr) => tr
  | .ok (_, tr) => tr

/-- Whether a step result succeeded. -/
def stepOk (res : StepRes) : Bool :=
  match res with
  | .error _ => false
  | .ok _ => true

/-- The whole apply pipeline: upstreams, then services, then routes, in
document order. -/
def applyRun (dr ov : Bool) (fl : FailSet) (spec : ApplySpec) : Step :=
  stepSeq (runUpstreams dr ov fl spec.upstreams)
    (stepSeq (runServices dr ov fl spec.services) (runRoutes dr ov fl spec.routes))

/-! ### Client status classification

`GetService`, `GetRoute` and `GetUpstream` share the same response handling:
404 means absent (no error), any other non-2xx status is an error `HTTP n`.
(The subsequent content-type and JSON checks can reject a 2xx body as well;
they do not affect the not-found versus other-error distinction.) -/

/-- The status handling common to the three get-by-name client functions:
`.ok false` = absent, `.ok true` = found (subject to body parsing),
`.error` = fatal fetch error. -/
def classifyFetchStatus (status : Nat) : Except String Bool :=
  if status == 404 then .ok false
  else if status / 100 != 2 then .error ("HTTP " ++ toString status)
  else .ok true

/-! ### Document normalisation (apply.go, top of `RunE`)

The Go code tries three deserialisations of the raw file in order: as a full
`applySpec` object, as a bare list of routes, and as a single route object.
Which of the three succeed is determined by the YAML library; a `RawInput`
records the outcome of each attempt, and `normalizeSpec` is the decision
cascade that follows. -/

structure RawInput where
  /-- Result of unmarshalling into `applySpec`; `none` when that fails. -/
  asSpec : Option ApplySpec
  /-- Result of unmarshalling into `[]applyRoute`. -/
  asRouteList : Option (List ApplyRoute)
  /-- Result of unmarshalling into a single `applyRoute`. -/
  asRoute : Option ApplyRoute
deriving Repr

def specIsEmpty (s : ApplySpec) : Bool :=
  s.upstreams.isEmpty && s.services.isEmpty && s.routes.isEmpty

/-- The route-shaped test applied to a single unmarshalled route object. -/
def routeShaped (r : ApplyRoute) : Bool :=
  r.name != "" || !r.paths.isEmpty || !r.hosts.isEmpty || !r.methods.isEmpty ||
  r.service != "" || !r.backend.targets.isEmpty || r.backend.protocol != "" ||
  r.backend.port != 0 || r.backend.path != ""

/-- The fallback cascade entered when the top-level object either failed to
parse or carried no resources: try a non-empty route list, then a single
route-shaped object; otherwise fail with the parse error (when the top-level
unmarshal failed) or the empty-document error. -/
def normFallback (raw : RawInput) : Except String ApplySpec :=
  let failMsg : Except String ApplySpec :=
    if raw.asSpec.isSome then
      .error "document is empty or carries no recognized resource"
    else .error "failed to parse the document"
  let single : Except String ApplySpec :=
    match raw.asRoute with
    | some r => if routeShaped r then .ok { routes := [r] } else failMsg
    | none => failMsg
  match raw.asRouteList with
  | some rs => if 0 < rs.length then .ok { routes := rs } else single
  | none => single

/-- The document normalisation of `RunE`: a successfully unmarshalled
top-level object with at least one resource wins; otherwise fall back. -/
def normalizeSpec (raw : RawInput) : Except String ApplySpec :=
  match raw.asSpec with
  | some s => if specIsEmpty s then normFallback raw else .ok s
  | none => normFallback raw

/-! ### Shared lemmas about the diff primitives -/

/-- `sliceSetEqual` is exactly multiset (permutation) equality: order never
matters, multiplicities always do. -/
theorem sliceSetEqual_iff_perm (a b : List String) :
    sliceSetEqual a b = true ↔ a.Perm b := by
  unfold sliceSetEqual
  rw [Bool.and_eq_true, beq_iff_eq, List.all_eq_true]
  constructor
  · rintro ⟨hlen, hcnt⟩
    have hle : (b : Multiset String) ≤ (a : Multiset String) := by
      rw [Multiset.le_iff_count]
      intro x
      by_cases hx : x ∈ b
      · have := hcnt x hx
        rw [decide_eq_true_iff] at this
        simpa using this
      · simp [List.count_eq_zero_of_not_mem hx]
    have hcard : Multiset.card (a : Multiset String) ≤ Multiset.card (b : Multiset String) := by
      simpa using hlen.le
    have := Multiset.eq_of_le_of_card_le hle hcard
    exact ((Multiset.coe_eq_coe).mp this.symm)
  · intro hp
    refine ⟨hp.length_eq, ?_⟩
    intro x _
    rw [decide_eq_true_iff]
    exact (hp.count_eq x).ge

/-! ### Per-resource executor traces (used by claim C1)

The next four lemmas compute the exact event list emitted by the service and
route sync steps for a resource that is Present remotely, with and without
`--overwrite`. -/

theorem serviceSyncSkipTrace
    (s : ApplyService) (cur : KongService) (st : RemoteState)
    (hcur : findService st s.name = some cur) :
    serviceSyncViaUpstream false false noFail s st =
      .ok (st, [Ev.getService s.name] ++
        (if svcCoreChanged cur s.upstream (svcProto s) (svcPort s) s.path
         then [Ev.warnSkip "Service" s.name] else []) ++
        (if svcExtrasChanged cur s
         then [Ev.warnSkip "ServiceExtras" s.name] else [])) := by
  by_cases hcore : svcCoreChanged cur s.upstream (svcProto s) (svcPort s) s.path <;>
    by_cases hext : svcExtrasChanged cur s <;>
      simp [serviceSyncViaUpstream, hcur, hcore, hext, noFail, withEvs, stepSeq]

theorem serviceSyncPatchTrace
    (s : ApplyService) (cur : KongService) (st : RemoteState)
    (hname : s.name ≠ "") (hup : s.upstream ≠ "")
    (hcur : findService st s.name = some cur) :
    stepOk (serviceSyncViaUpstream false true noFail s st) = true ∧
    stepTrace (serviceSyncViaUpstream false true noFail s st) =
      [Ev.getService s.name] ++
        (if svcCoreChanged cur s.upstream (svcProto s) (svcPort s) s.path
         then [Ev.getService s.name,
               Ev.patchServiceUpstream s.name s.upstream (svcProto s) (svcPort s) s.path]
         else []) ++
        (if svcExtrasChanged cur s
         then [Ev.patchServiceExtras s.name s.retries s.connectTimeout s.readTimeout
                 s.writeTimeout]
         else []) := by
  have hproto : svcProto s ≠ "" := by
    unfold svcProto
    split <;> simp_all
  have hport0 : (svcPort s == 0) = false := by
    unfold svcPort
    by_cases h : (s.port == 0) = true
    · simp only [h, if_true]
      split <;> decide
    · simp [h]
  have hpay : svcExtrasChanged cur s = true →
      ¬ (decide (s.retries ≤ 0) && decide (s.connectTimeout ≤ 0) &&
         decide (s.readTimeout ≤ 0) && decide (s.writeTimeout ≤ 0)) = true := by
    intro hext hall
    simp only [Bool.and_eq_true, decide_eq_true_iff] at hall
    simp [svcExtrasChanged, Int.not_lt.mpr hall.1.1.1, Int.not_lt.mpr hall.1.1.2,
      Int.not_lt.mpr hall.1.2, Int.not_lt.mpr hall.2] at hext
  by_cases hcore : svcCoreChanged cur s.upstream (svcProto s) (svcPort s) s.path <;>
    by_cases hext : svcExtrasChanged cur s
  · exact ⟨by simp [serviceSyncViaUpstream, hcur, hcore, hext, noFail, withEvs, stepSeq,
        createOrUpdateServiceViaUpstream, updateServiceExtras, hname, hup, hproto, hport0,
        hpay hext, stepOk],
      by simp [serviceSyncViaUpstream, hcur, hcore, hext, noFail, withEvs, stepSeq,
        createOrUpdateServiceViaUpstream, updateServiceExtras, hname, hup, hproto, hport0,
        hpay hext, stepTrace]⟩
  · exact ⟨by simp [serviceSyncViaUpstream, hcur, hcore, hext, noFail, withEvs, stepSeq,
        createOrUpdateServiceViaUpstream, hname, hup, hproto, hport0, stepOk],
      by simp [serviceSyncViaUpstream, hcur, hcore, hext, noFail, withEvs, stepSeq,
        createOrUpdateServiceViaUpstream, hname, hup, hproto, hport0, stepTrace]⟩
  · exact ⟨by simp [serviceSyncViaUpstream, hcur, hcore, hext, noFail, withEvs, stepSeq,
        updateServiceExtras, hpay hext, stepOk],
      by simp [serviceSyncViaUpstream, hcur, hcore, hext, noFail, withEvs, stepSeq,
        updateServiceExtras, hpay hext, stepTrace]⟩
  · exact ⟨by simp [serviceSyncViaUpstream, hcur, hcore, hext, noFail, withEvs, stepSeq,
        stepOk],
      by simp [serviceSyncViaUpstream, hcur, hcore, hext, noFail, withEvs, stepSeq,
        stepTrace]⟩

theorem serviceSyncDryUpdate
    (ov : Bool) (s : ApplyService) (cur : KongService) (st : RemoteState)
    (hcur : findService st s.name = some cur)
    (hch : (svcCoreChanged cur s.upstream (svcProto s) (svcPort s) s.path ||
            svcExtrasChanged cur s) = true) :
    serviceSyncViaUpstream true ov noFail s st =
      .ok (st, [Ev.getService s.name, Ev.planItem "Service" s.name "update"]) := by
  simp [serviceSyncViaUpstream, hcur, hch, noFail]

theorem routeSyncDryUpdate
    (ov : Bool) (r : ApplyRoute) (name : String) (cur : KongRoute) (st : RemoteState)
    (hph : (phNorm r != "" && phNorm r != "v0" && phNorm r != "v1") = false)
    (hcur : findRoute st name = some cur)
    (hch : routeChanged r cur (mkDesired r name (phNorm r)) = true) :
    routeSync true ov noFail r name st =
      .ok (st, [Ev.getRoute name, Ev.planItem "Route" name "update"]) := by
  simp [routeSync, hph, hcur, hch, noFail]

theorem routeSyncSkipTrace
    (r : ApplyRoute) (name : String) (cur : KongRoute) (st : RemoteState)
    (hph : (phNorm r != "" && phNorm r != "v0" && phNorm r != "v1") = false)
    (hcur : findRoute st name = some cur)
    (hch : routeChanged r cur (mkDesired r name (phNorm r)) = true) :
    routeSync false false noFail r name st =
      .ok (st, [Ev.getRoute name, Ev.warnSkip "Route" name]) := by
  simp [routeSync, hph, hcur, hch, noFail]

theorem routeSyncPatchTrace
    (r : ApplyRoute) (name : String) (cur : KongRoute) (svc : KongService)
    (st : RemoteState)
    (hname : name ≠ "") (hsvc : r.service ≠ "")
    (hph : (phNorm r != "" && phNorm r != "v0" && phNorm r != "v1") = false)
    (hcur : findRoute st name = some cur)
    (hsvcfound : findService st r.service = some svc)
    (hch : routeChanged r cur (mkDesired r name (phNorm r)) = true) :
    routeSync false true noFail r name st =
      .ok (patchRouteSt st cur.name
             (applyRoutePatch cur { mkDesired r name (phNorm r) with serviceId := svc.id }),
           [Ev.getRoute name, Ev.getService r.service, Ev.getRoute name,
            Ev.patchRoute { mkDesired r name (phNorm r) with serviceId := svc.id }]) := by
  have hdesName : (mkDesired r name (phNorm r)).name = name := rfl
  have hdesSvc : (mkDesired r name (phNorm r)).serviceName = r.service := rfl
  have hdesId : (mkDesired r name (phNorm r)).serviceId = "" := rfl
  simp [routeSync, hph, hcur, hch, noFail, withEvs, createOrUpdateRoute,
    createOrUpdateRouteResolved, hname, hsvc, hsvcfound, hdesName, hdesSvc, hdesId]

/-! ### Claim theorems -/

/-- C1 counterexample: a remote Service that differs from the document in a
core connection field (protocol) **and** in a declared extra (retries) is
Present with at least one declared field differing, yet with override
disabled the run records **two** skip notices (not exactly one), and with
override enabled it issues **two** patch calls (not exactly one).  The run
still issues no create and no patch with override disabled. -/
theorem c1_counterexample :
    (let s : ApplyService := { name := "s1", upstream := "u1", protocol := "https",
                               retries := 7 }
     let cur : KongService := { id := "s1", name := "s1", protocol := "http",
                                host := "u1", port := 443, retries := 5 }
     let st : RemoteState := { services := [cur] }
     svcCoreChanged cur "u1" (svcProto s) (svcPort s) s.path = true ∧
     serviceSyncViaUpstream false false noFail s st =
       .ok (st, [Ev.getService "s1", Ev.warnSkip "Service" "s1",
                 Ev.warnSkip "ServiceExtras" "s1"]) ∧
     (stepTrace (serviceSyncViaUpstream false false noFail s st)).countP
        (fun e => match e with | Ev.warnSkip _ _ => true | _ => false) = 2 ∧
     (stepTrace (serviceSyncViaUpstream false true noFail s st)).countP isPatchEv = 2) := by
  refine ⟨rfl, by rfl, by rfl, by rfl⟩

/-- C1 (amended): for a Present, changed resource the dry-run classification
is Update; with override disabled the executor issues no mutating call and
records skip notices carrying the resource's name — exactly one for a Route,
and one per changed field group for a Service (core connection fields versus
extras), hence exactly one when a single group differs; with override enabled
it issues exactly one patch per changed group (exactly one for a Route). -/
theorem c1_overwrite_gating :
    (∀ (ov : Bool) (r : ApplyRoute) (name : String) (cur : KongRoute) (st : RemoteState),
      (phNorm r != "" && phNorm r != "v0" && phNorm r != "v1") = false →
      findRoute st name = some cur →
      routeChanged r cur (mkDesired r name (phNorm r)) = true →
      routeSync true ov noFail r name st =
        .ok (st, [Ev.getRoute name, Ev.planItem "Route" name "update"])) ∧
    (∀ (r : ApplyRoute) (name : String) (cur : KongRoute) (st : RemoteState),
      (phNorm r != "" && phNorm r != "v0" && phNorm r != "v1") = false →
      findRoute st name = some cur →
      routeChanged r cur (mkDesired r name (phNorm r)) = true →
      routeSync false false noFail r name st =
        .ok (st, [Ev.getRoute name, Ev.warnSkip "Route" name])) ∧
    (∀ (r : ApplyRoute) (name : String) (cur : KongRoute) (svc : KongService)
       (st : RemoteState),
      name ≠ "" → r.service ≠ "" →
      (phNorm r != "" && phNorm r != "v0" && phNorm r != "v1") = false →
      findRoute st name = some cur →
      findService st r.service = some svc →
      routeChanged r cur (mkDesired r name (phNorm r)) = true →
      stepTrace (routeSync false true noFail r name st) =
        [Ev.getRoute name, Ev.getService r.service, Ev.getRoute name,
         Ev.patchRoute { mkDesired r name (phNorm r) with serviceId := svc.id }]) ∧
    (∀ (ov : Bool) (s : ApplyService) (cur : KongService) (st : RemoteState),
      findService st s.name = some cur →
      (svcCoreChanged cur s.upstream (svcProto s) (svcPort s) s.path ||
        svcExtrasChanged cur s) = true →
      serviceSyncViaUpstream true ov noFail s st =
        .ok (st, [Ev.getService s.name, Ev.planItem "Service" s.name "update"])) ∧
    (∀ (s : ApplyService) (cur : KongService) (st : RemoteState),
      findService st s.name = some cur →
      serviceSyncViaUpstream false false noFail s st =
        .ok (st, [Ev.getService s.name] ++
          (if svcCoreChanged cur s.upstream (svcProto s) (svcPort s) s.path
           then [Ev.warnSkip "Service" s.name] else []) ++
          (if svcExtrasChanged cur s
           then [Ev.warnSkip "ServiceExtras" s.name] else []))) ∧
    (∀ (s : ApplyService) (cur : KongService) (st : RemoteState),
      s.name ≠ "" → s.upstream ≠ "" →
      findService st s.name = some cur →
      stepOk (serviceSyncViaUpstream false true noFail s st) = true ∧
      stepTrace (serviceSyncViaUpstream false true noFail s st) =
        [Ev.getService s.name] ++
          (if svcCoreChanged cur s.upstream (svcProto s) (svcPort s) s.path
           then [Ev.getService s.name,
                 Ev.patchServiceUpstream s.name s.upstream (svcProto s) (svcPort s) s.path]
           else []) ++
          (if svcExtrasChanged cur s
           then [Ev.patchServiceExtras s.name s.retries s.connectTimeout s.readTimeout
                   s.writeTimeout]
           else [])) := by
  refine ⟨routeSyncDryUpdate, routeSyncSkipTrace, ?_, serviceSyncDryUpdate,
    serviceSyncSkipTrace, serviceSyncPatchTrace⟩
  intro r name cur svc st hname hsvc hph hcur hsvcfound hch
  rw [routeSyncPatchTrace r name cur svc st hname hsvc hph hcur hsvcfound hch]
  rfl

/-- C1 witness: the Route skip clause applied to a concrete Present, changed
route with override disabled: one lookup, one skip notice, no mutation. -/
theorem c1_overwrite_gating_witness :
    (let r : ApplyRoute := { name := "r1", service := "svcX", paths := ["/p"] }
     let cur : KongRoute := { name := "r1", paths := ["/q"], stripPath := some true,
                              serviceName := "svcX" }
     let st : RemoteState := { routes := [cur] }
     routeSync false false noFail r "r1" st =
       .ok (st, [Ev.getRoute "r1", Ev.warnSkip "Route" "r1"])) :=
  c1_overwrite_gating.2.1 _ "r1" _ _ (by decide) (by rfl) (by decide)

/-- C3 counterexample: a document Service bound to an upstream that leaves
protocol, port and path unset is classified Update against a remote service
that differs only in protocol (`https` versus the default `http`): the
unset-looking scalar is defaulted and compared, not skipped. -/
theorem c3_counterexample :
    (let s : ApplyService := { name := "s1", upstream := "u1" }
     let cur : KongService := { id := "s1", name := "s1", protocol := "https",
                                host := "u1", port := 80 }
     let st : RemoteState := { services := [cur] }
     s.protocol = "" ∧ s.port = 0 ∧ s.path = "" ∧
     serviceSyncViaUpstream true false noFail s st =
       .ok (st, [Ev.getService "s1", Ev.planItem "Service" "s1" "update"])) := by
  refine ⟨rfl, rfl, rfl, ?_⟩
  rfl

/-- C3 (amended): the unset-means-no-diff rule holds for the guarded scalars
— Service retries and timeouts, Route path-handling, preserve-host, regex
priority, https-redirect status and buffering flags (when those are unset the
remote's values of those fields can never affect the classification) — but
not for Service protocol/port/path, which are defaulted and always compared,
nor for Route strip-path, which defaults to true and is always compared. -/
theorem c3_unset_scalar_fields :
    (∀ (cur : KongService) (s : ApplyService),
      s.retries = 0 → s.connectTimeout = 0 → s.readTimeout = 0 → s.writeTimeout = 0 →
      svcExtrasChanged cur s = false) ∧
    (∀ (r : ApplyRoute) (name ph : String) (cur cur' : KongRoute),
      ph = "" → r.preserveHost = none → r.regexPriority = 0 →
      r.httpsRedirectStatusCode = 0 → r.requestBuffering = none →
      r.responseBuffering = none →
      cur.hosts = cur'.hosts → cur.paths = cur'.paths → cur.methods = cur'.methods →
      cur.protocols = cur'.protocols → cur.headers = cur'.headers →
      cur.snis = cur'.snis → cur.tags = cur'.tags →
      cur.stripPath = cur'.stripPath → cur.serviceName = cur'.serviceName →
      routeChanged r cur (mkDesired r name ph) = routeChanged r cur' (mkDesired r name ph)) := by
  constructor
  · intro cur s h1 h2 h3 h4
    simp [svcExtrasChanged, h1, h2, h3, h4]
  · intro r name ph cur cur' hph hpre hregex hredir hreq hresp e1 e2 e3 e4 e5 e6 e7 e8 e9
    simp only [routeChanged, mkDesired, hph, hpre, hregex, hredir, hreq, hresp,
      e1, e2, e3, e4, e5, e6, e7, e8, e9]
    simp [lowerStr]

/-- C3 witness: the extras clause at a concrete remote with nonzero remote
retries and an all-unset document: no extras diff. -/
theorem c3_unset_scalar_fields_witness :
    svcExtrasChanged { id := "s1", name := "s1", retries := 5 } { name := "s1" } = false :=
  c3_unset_scalar_fields.1 _ { name := "s1" } rfl rfl rfl rfl

/-- C5 counterexample: duplicates are not irrelevant.  A desired hosts list
`["h","h"]` against remote `["h"]` is equal as a set (the diff text reports
no added and no removed element) yet the engine classifies the route as
changed, because `sliceSetEqual` compares multiplicities. -/
theorem c5_counterexample :
    (let r : ApplyRoute := { name := "r", service := "s", hosts := ["h", "h"] }
     let cur : KongRoute := { name := "r", hosts := ["h"], stripPath := some true,
                              serviceName := "s" }
     routeChanged r cur (mkDesired r "r" "") = true ∧
     diffSliceParts cur.hosts (mkDesired r "r" "").hosts = ([], [])) := by
  decide

/-- C5 (amended): collection fields are compared order-insensitively but with
multiplicities (`sliceSetEqual` is exactly permutation equality, so order and
duplicates on both sides in equal number are irrelevant, but a differing
multiplicity is a diff); the rendered added/removed lists are set-based; and
the methods example holds: desired `["get","post"]` (upper-cased) against
remote `["GET"]` is a diff whose only reported change is the addition of
`"POST"`. -/
theorem c5_collection_diff :
    (∀ a b : List String, sliceSetEqual a b = true ↔ a.Perm b) ∧
    (sliceSetEqual ["GET"] (toUpper ["get", "post"]) = false ∧
     diffSliceParts ["GET"] (toUpper ["get", "post"]) = ([], ["POST"])) :=
  ⟨sliceSetEqual_iff_perm, by decide, by decide⟩

/-- C5 witness: permutation equality at a concrete pair of lists. -/
theorem c5_collection_diff_witness : sliceSetEqual ["a", "b"] ["b", "a"] = true :=
  (c5_collection_diff.1 ["a", "b"] ["b", "a"]).mpr (by decide)

/-- C7 counterexample: in dry-run mode a failed (non-404) lookup is **not**
fatal: the resource is planned as `create` and the following resources are
still processed — here the lookup of `u1` fails, yet `u2` is still fetched
and the run succeeds. -/
def flC7 : FailSet :=
  { up := fun n => n == "u1", svc := fun _ => false, rt := fun _ => false,
    tgt := fun _ => false }

theorem c7_counterexample :
    applyRun true false flC7
        { upstreams := [{ name := "u1" }, { name := "u2" }] } {} =
      .ok ({}, [Ev.getUpstream "u1", Ev.planItem "Upstream" "u1" "create",
                Ev.getUpstream "u2", Ev.planItem "Upstream" "u2" "create"]) := by
  rfl

/-- C7 (amended): a not-found (404) response classifies as Absent with no
error; every other non-2xx response yields a fetch error; and in executing
(non-dry-run) mode such a failure aborts the whole run immediately — the
error trace contains only the failed lookup, and no later resource (services
and routes included) is processed.  In dry-run mode, however, the failure is
swallowed and the resource planned as `create` (see the counterexample). -/
theorem c7_fetch_errors :
    (classifyFetchStatus 404 = .ok false) ∧
    (∀ c : Nat, 200 ≤ c → c < 300 → classifyFetchStatus c = .ok true) ∧
    (∀ c : Nat, ¬ (200 ≤ c ∧ c < 300) → c ≠ 404 →
      classifyFetchStatus c = .error ("HTTP " ++ toString c)) ∧
    (∀ (ov : Bool) (fl : FailSet) (u : ApplyUpstream) (us : List ApplyUpstream)
       (svcs : List ApplyService) (rts : List ApplyRoute) (st : RemoteState),
      fl.up u.name = true → u.name ≠ "" →
      applyRun false ov fl ⟨u :: us, svcs, rts⟩ st =
        .error ("HTTP 500", [Ev.getUpstream u.name])) := by
  refine ⟨rfl, ?_, ?_, ?_⟩
  · intro c h1 h2
    have h404 : (c == 404) = false := by simp; omega
    have hdiv : (c / 100 != 2) = false := by simp; omega
    simp [classifyFetchStatus, h404, hdiv]
  · intro c hno h404
    have h404b : (c == 404) = false := by simp [h404]
    have hdiv : (c / 100 != 2) = true := by simp; omega
    simp [classifyFetchStatus, h404b, hdiv]
  · intro ov fl u us svcs rts st hfail hname
    have hn : (u.name == "") = false := by simp [hname]
    simp [applyRun, runUpstreams, upstreamEntryBlock, ensureUpstreamBlock, stepSeq,
      hn, hfail]

/-- C7 witness: a concrete 500 is a fetch error, and a concrete executing run
with one failing upstream aborts with just that lookup in its trace. -/
theorem c7_fetch_errors_witness :
    classifyFetchStatus 500 = .error ("HTTP " ++ toString 500) ∧
    applyRun false false flC7 { upstreams := [{ name := "u1" }] } {} =
      .error ("HTTP 500", [Ev.getUpstream "u1"]) :=
  ⟨c7_fetch_errors.2.2.1 500 (by omega) (by decide),
   c7_fetch_errors.2.2.2 false flC7 { name := "u1" } [] [] [] {} (by rfl) (by decide)⟩

/-- C8 counterexample: the name-or-service validation of a route happens only
when the route is reached, after earlier document resources have already
issued remote calls: here an upstream is fetched and created before the bad
route aborts the run. -/
theorem c8_counterexample :
    applyRun false false noFail
        { upstreams := [{ name := "u" }], routes := [{}] } {} =
      .error ("route has no name and no service; cannot derive",
              [Ev.getUpstream "u", Ev.getUpstream "u", Ev.createUpstream "u"]) := by
  rfl

/-- C8 (amended): a route with neither a service reference nor a name fails
the run with a validation error when it is processed, before any remote call
is issued **for that route** (and, in a document carrying only routes with
the offending route first, before any remote call of the invocation at all —
the error trace is empty).  Remote calls for resources earlier in the
document may already have been issued (see the counterexample). -/
theorem c8_route_validation :
    ∀ (dr ov : Bool) (fl : FailSet) (r : ApplyRoute) (rest : List ApplyRoute)
      (st : RemoteState),
      r.name = "" → r.service = "" →
      applyRun dr ov fl { routes := r :: rest } st =
        .error ("route has no name and no service; cannot derive", []) := by
  intro dr ov fl r rest st h1 h2
  simp [applyRun, runUpstreams, runServices, runRoutes, routeBlock, routeName, stepSeq,
    h1, h2]

/-- C8 witness: the validation failure with an empty trace at a concrete
routes-only document. -/
theorem c8_route_validation_witness :
    applyRun false false noFail { routes := [{}] } {} =
      .error ("route has no name and no service; cannot derive", []) :=
  c8_route_validation false false noFail {} [] {} rfl rfl

/-- C9: document normalisation recognises, in priority order, a top-level
object with a non-empty upstreams/services/routes collection, then a
non-empty bare route list, then a single route-shaped object, and fails with
a parse error exactly when none of these content-carrying shapes matches. -/
theorem c9_normalization :
    (∀ (raw : RawInput) (s : ApplySpec), raw.asSpec = some s → specIsEmpty s = false →
      normalizeSpec raw = .ok s) ∧
    (∀ (raw : RawInput) (rs : List ApplyRoute),
      (∀ s, raw.asSpec = some s → specIsEmpty s = true) →
      raw.asRouteList = some rs → rs ≠ [] →
      normalizeSpec raw = .ok { routes := rs }) ∧
    (∀ (raw : RawInput) (r : ApplyRoute),
      (∀ s, raw.asSpec = some s → specIsEmpty s = true) →
      (∀ rs, raw.asRouteList = some rs → rs = []) →
      raw.asRoute = some r → routeShaped r = true →
      normalizeSpec raw = .ok { routes := [r] }) ∧
    (∀ raw : RawInput, (∃ e, normalizeSpec raw = .error e) ↔
      ¬ ((∃ s, raw.asSpec = some s ∧ specIsEmpty s = false) ∨
         (∃ rs, raw.asRouteList = some rs ∧ rs ≠ []) ∨
         (∃ r, raw.asRoute = some r ∧ routeShaped r = true))) := by
  refine ⟨?_, ?_, ?_, ?_⟩
  · intro raw s hs hne
    obtain ⟨os, ol, orr⟩ := raw
    simp_all [normalizeSpec]
  · intro raw rs hempty hl hne
    obtain ⟨os, ol, orr⟩ := raw
    rcases os with _ | s <;>
      simp_all [normalizeSpec, normFallback, List.length_pos]
  · intro raw r hempty hlist hr hshaped
    obtain ⟨os, ol, orr⟩ := raw
    rcases os with _ | s <;> rcases ol with _ | rs <;>
      simp_all [normalizeSpec, normFallback]
  · intro raw
    obtain ⟨os, ol, orr⟩ := raw
    rcases os with _ | s <;> rcases ol with _ | rs <;> rcases orr with _ | r <;>
      simp [normalizeSpec, normFallback, List.length_pos,
        List.eq_nil_iff_forall_not_mem] <;>
      split_ifs <;>
      simp_all [List.length_pos, List.eq_nil_iff_forall_not_mem, not_forall]

/-- C9 witness: the priority clauses at concrete raw inputs — a non-empty
top-level object wins even when the single-route parse would also succeed,
and a bare two-route list is wrapped as a routes-only document. -/
theorem c9_normalization_witness :
    (let s : ApplySpec := { services := [{ name := "a", url := "http://a" }] }
     normalizeSpec { asSpec := some s, asRouteList := none, asRoute := some {} } = .ok s) ∧
    normalizeSpec
        { asSpec := none, asRouteList := some [{ name := "r1" }, { name := "r2" }],
          asRoute := none } =
      .ok { routes := [{ name := "r1" }, { name := "r2" }] } :=
  ⟨c9_normalization.1 _ _ rfl rfl,
   c9_normalization.2.1 _ _ (fun s h => by cases h) rfl (by decide)⟩

/-- C10: a route that does not declare `strip_path` is treated as explicitly
true: the desired route carries `strip_path = some true` (this is what a
create posts), and a Present remote route agreeing on every other compared
field but with `strip_path = false` is classified as changed on that account
alone (with `strip_path = true` it is NoChange). -/
theorem c10_strip_path_default :
    (∀ (r : ApplyRoute) (name ph : String), r.stripPath = none →
      (mkDesired r name ph).stripPath = some true) ∧
    (∀ (r : ApplyRoute) (name ph : String) (cur : KongRoute),
      r.stripPath = none →
      sliceSetEqual cur.hosts (mkDesired r name ph).hosts = true →
      sliceSetEqual cur.paths (mkDesired r name ph).paths = true →
      sliceSetEqual (toUpper cur.methods) (mkDesired r name ph).methods = true →
      (decide (0 < r.protocols.length) &&
        !sliceSetEqual cur.protocols (mkDesired r name ph).protocols) = false →
      (lowerStr (mkDesired r name ph).pathHandling != "" &&
        lowerStr cur.pathHandling != lowerStr (mkDesired r name ph).pathHandling) = false →
      (r.preserveHost.isSome &&
        (cur.preserveHost.getD false) != ((mkDesired r name ph).preserveHost.getD false)) = false →
      (r.regexPriority != 0 &&
        cur.regexPriority != (mkDesired r name ph).regexPriority) = false →
      (r.httpsRedirectStatusCode != 0 &&
        cur.httpsRedirectStatusCode != (mkDesired r name ph).httpsRedirectStatusCode) = false →
      (r.requestBuffering.isSome &&
        (cur.requestBuffering.getD false) != ((mkDesired r name ph).requestBuffering.getD false)) = false →
      (r.responseBuffering.isSome &&
        (cur.responseBuffering.getD false) != ((mkDesired r name ph).responseBuffering.getD false)) = false →
      (decide (0 < r.headers.length) &&
        !mapStringSliceEqual cur.headers (mkDesired r name ph).headers) = false →
      (decide (0 < r.snis.length) && !sliceSetEqual cur.snis (mkDesired r name ph).snis) = false →
      (decide (0 < r.tags.length) && !sliceSetEqual cur.tags (mkDesired r name ph).tags) = false →
      (cur.serviceName != (mkDesired r name ph).serviceName &&
        (mkDesired r name ph).serviceName != "") = false →
      (cur.stripPath = some false → routeChanged r cur (mkDesired r name ph) = true) ∧
      (cur.stripPath = some true → routeChanged r cur (mkDesired r name ph) = false)) := by
  constructor
  · intro r name ph h
    simp [mkDesired, h]
  · intro r name ph cur hsp h1 h2 h3 h4 h5 h6 h7 h8 h9 h10 h11 h12 h13 h14
    have hdes : (mkDesired r name ph).stripPath = some true := by simp [mkDesired, hsp]
    constructor
    · intro hc
      simp [routeChanged, h1, h2, h3, h4, h5, h6, h7, h8, h9, h10, h11, h12, h13, h14,
        hc, hdes]
    · intro hc
      simp [routeChanged, h1, h2, h3, h4, h5, h6, h7, h8, h9, h10, h11, h12, h13, h14,
        hc, hdes]

/-- C10 witness: the strip-path-only diff at a concrete route. -/
theorem c10_strip_path_default_witness :
    (let r : ApplyRoute := { name := "r1", service := "svcX", paths := ["/p"] }
     let cur : KongRoute := { name := "r1", paths := ["/p"], stripPath := some false,
                              serviceName := "svcX" }
     (mkDesired r "r1" "").stripPath = some true ∧
     routeChanged r cur (mkDesired r "r1" "") = true) := by
  refine ⟨c10_strip_path_default.1 _ "r1" "" rfl, ?_⟩
  exact (c10_strip_path_default.2 _ "r1" "" _ rfl (by decide) (by decide) (by decide)
    (by decide) (by decide) (by decide) (by decide) (by decide) (by decide) (by decide)
    (by decide) (by decide) (by decide) (by decide)).1 rfl

/-! ### Dry-run mutational silence (claim C6) -/

/-- A step that never emits a mutating (keyed) event, on success or error. -/
def NoMut (f : Step) : Prop := ∀ st, ∀ e ∈ stepTrace (f st), evKey e = none

theorem noMut_seq {f g : Step} (hf : NoMut f) (hg : NoMut g) : NoMut (stepSeq f g) := by
  intro st e he
  unfold stepSeq at he
  rcases hfst : f st with ⟨e1, tr1⟩ | ⟨st1, tr1⟩ <;> simp only [hfst, stepTrace] at he
  · exact hf st e (by rw [hfst]; exact he)
  · rcases hgst : g st1 with ⟨e2, tr2⟩ | ⟨st2, tr2⟩ <;> simp only [hgst, stepTrace] at he <;>
      rcases List.mem_append.mp he with h | h
    · exact hf st e (by rw [hfst]; exact h)
    · exact hg st1 e (by rw [hgst]; exact h)
    · exact hf st e (by rw [hfst]; exact h)
    · exact hg st1 e (by rw [hgst]; exact h)

theorem noMut_ensureUpstreamBlock (ov : Bool) (fl : FailSet) (n : String) :
    NoMut (ensureUpstreamBlock true ov fl n) := by
  intro st e he
  unfold ensureUpstreamBlock at he
  by_cases hfl : fl.up n = true <;> simp [hfl, stepTrace] at he <;>
    rcases he with rfl | rfl <;> rfl

theorem noMut_targetBlock (ov : Bool) (fl : FailSet) (up : String) (t : ApplyTarget) :
    NoMut (targetBlock true ov fl up t) := by
  intro st e he
  unfold targetBlock at he
  by_cases hfl : fl.tgt up = true <;> simp [hfl, stepTrace] at he <;>
    rcases he with rfl | rfl <;> rfl

theorem noMut_targetsLoop (ov : Bool) (fl : FailSet) (up : String)
    (ts : List ApplyTarget) : NoMut (targetsLoop true ov fl up ts) := by
  induction ts with
  | nil => intro st e he; simp [targetsLoop, stepTrace] at he
  | cons t ts ih => exact noMut_seq (noMut_targetBlock ov fl up t) ih

theorem noMut_upstreamEntryBlock (ov : Bool) (fl : FailSet) (u : ApplyUpstream) :
    NoMut (upstreamEntryBlock true ov fl u) := by
  intro st e he
  unfold upstreamEntryBlock at he
  split at he
  · simp [stepTrace] at he
  · exact noMut_seq (noMut_ensureUpstreamBlock ov fl u.name)
      (noMut_targetsLoop ov fl u.name u.targets) st e he

theorem noMut_serviceSyncViaUpstream (ov : Bool) (fl : FailSet) (s : ApplyService) :
    NoMut (serviceSyncViaUpstream true ov fl s) := by
  intro st e he
  unfold serviceSyncViaUpstream at he
  by_cases hfl : fl.svc s.name = true
  · simp [hfl, stepTrace] at he
    rcases he with rfl | rfl <;> rfl
  · rcases hf : findService st s.name with _ | cur <;>
      simp [hfl, hf, stepTrace] at he <;> rcases he with rfl | rfl <;> rfl

theorem noMut_serviceUpstreamBlock (ov : Bool) (fl : FailSet) (s : ApplyService) :
    NoMut (serviceUpstreamBlock true ov fl s) :=
  noMut_seq (noMut_ensureUpstreamBlock ov fl s.upstream)
    (noMut_seq (noMut_targetsLoop ov fl s.upstream s.targets)
      (noMut_serviceSyncViaUpstream ov fl s))

theorem noMut_serviceUrlBlock (ov : Bool) (fl : FailSet) (s : ApplyService) :
    NoMut (serviceUrlBlock true ov fl s) := by
  intro st e he
  unfold serviceUrlBlock at he
  by_cases hu : (s.url == "") = true
  · simp [hu, stepTrace] at he
  · by_cases hfl : fl.svc s.name = true
    · simp [hu, hfl, stepTrace] at he
      rcases he with rfl | rfl <;> rfl
    · rcases hf : findService st s.name with _ | cur <;>
        simp [hu, hfl, hf, stepTrace] at he <;> rcases he with rfl | rfl <;> rfl

theorem noMut_serviceBlock (ov : Bool) (fl : FailSet) (s : ApplyService) :
    NoMut (serviceBlock true ov fl s) := by
  intro st e he
  unfold serviceBlock at he
  split at he
  · simp [stepTrace] at he
  · split at he
    · exact noMut_serviceUpstreamBlock ov fl s st e he
    · exact noMut_serviceUrlBlock ov fl s st e he

theorem noMut_autoServiceSync (ov : Bool) (fl : FailSet) (svcName upName : String)
    (b : RouteBackend) : NoMut (autoServiceSync true ov fl svcName upName b) := by
  intro st e he
  unfold autoServiceSync at he
  by_cases hfl : fl.svc svcName = true
  · simp [hfl, stepTrace] at he
    rcases he with rfl | rfl <;> rfl
  · rcases hf : findService st svcName with _ | cur <;>
      simp [hfl, hf, stepTrace] at he <;> rcases he with rfl | rfl <;> rfl

theorem noMut_routeSync (ov : Bool) (fl : FailSet) (r : ApplyRoute) (name : String) :
    NoMut (routeSync true ov fl r name) := by
  intro st e he
  unfold routeSync at he
  by_cases hph : (phNorm r != "" && phNorm r != "v0" && phNorm r != "v1") = true
  · simp [hph, stepTrace] at he
  · by_cases hfl : fl.rt name = true
    · simp [hph, hfl, stepTrace] at he
      rcases he with rfl | rfl <;> rfl
    · rcases hf : findRoute st name with _ | cur <;>
        simp [hph, hfl, hf, stepTrace] at he <;> rcases he with rfl | rfl <;> rfl

theorem noMut_routeBlock (ov : Bool) (fl : FailSet) (r : ApplyRoute) :
    NoMut (routeBlock true ov fl r) := by
  intro st e he
  unfold routeBlock at he
  split at he
  · split at he
    · simp [stepTrace] at he
    · exact noMut_seq (noMut_ensureUpstreamBlock ov fl _)
        (noMut_seq (noMut_targetsLoop ov fl _ _)
          (noMut_seq (noMut_autoServiceSync ov fl _ _ _)
            (noMut_routeSync ov fl _ _))) st e he
  · exact noMut_routeSync ov fl _ _ st e he

theorem noMut_runUpstreams (ov : Bool) (fl : FailSet) (us : List ApplyUpstream) :
    NoMut (runUpstreams true ov fl us) := by
  induction us with
  | nil => intro st e he; simp [runUpstreams, stepTrace] at he
  | cons u us ih => exact noMut_seq (noMut_upstreamEntryBlock ov fl u) ih

theorem noMut_runServices (ov : Bool) (fl : FailSet) (ss : List ApplyService) :
    NoMut (runServices true ov fl ss) := by
  induction ss with
  | nil => intro st e he; simp [runServices, stepTrace] at he
  | cons s ss ih => exact noMut_seq (noMut_serviceBlock ov fl s) ih

theorem noMut_runRoutes (ov : Bool) (fl : FailSet) (rs : List ApplyRoute) :
    NoMut (runRoutes true ov fl rs) := by
  induction rs with
  | nil => intro st e he; simp [runRoutes, stepTrace] at he
  | cons r rs ih => exact noMut_seq (noMut_routeBlock ov fl r) ih

/-- C6: a dry-run invocation issues no mutating remote call whatsoever —
every event of its trace (whether the run succeeds or aborts on a validation
error) is a lookup, a plan item or a notice, never a create or a patch —
regardless of the override flag, the fetch-failure pattern, the document and
the remote state. -/
theorem c6_dry_run_no_mutation :
    ∀ (ov : Bool) (fl : FailSet) (spec : ApplySpec) (st : RemoteState),
      ∀ e ∈ stepTrace (applyRun true ov fl spec st), evKey e = none := by
  intro ov fl spec
  exact noMut_seq (noMut_runUpstreams ov fl spec.upstreams)
    (noMut_seq (noMut_runServices ov fl spec.services)
      (noMut_runRoutes ov fl spec.routes))

/-- C6 witness: at a concrete one-upstream document the dry-run trace element
is a lookup, hence keyless. -/
theorem c6_dry_run_no_mutation_witness : evKey (Ev.getUpstream "u") = none :=
  c6_dry_run_no_mutation false noFail { upstreams := [{ name := "u" }] } {}
    (Ev.getUpstream "u") (by decide)

/-! ### Presence lemmas

How each state primitive affects `present`, and how the interpreter's lookup
guards relate to it. -/

theorem any_name_map {α : Type} (l : List α) (g : α → α) (nm : α → String)
    (h : ∀ x, nm (g x) = nm x) (m : String) :
    (l.map g).any (fun x => nm x == m) = l.any (fun x => nm x == m) := by
  induction l with
  | nil => rfl
  | cons a t ih => simp only [List.map_cons, List.any_cons, h, ih]

theorem present_addUpstreamSt {st : RemoteState} {n : String} {k : RKey}
    (h : present st k = true) : present (addUpstreamSt st n) k = true := by
  cases k <;> simp_all [present, addUpstreamSt]

theorem present_addUpstreamSt_self (st : RemoteState) (n : String) :
    present (addUpstreamSt st n) (.up n) = true := by
  simp [present, addUpstreamSt]

theorem present_addServiceSt {st : RemoteState} {s : KongService} {k : RKey}
    (h : present st k = true) : present (addServiceSt st s) k = true := by
  cases k <;> simp_all [present, addServiceSt]

theorem present_addServiceSt_self (st : RemoteState) (s : KongService) :
    present (addServiceSt st s) (.svc s.name) = true := by
  simp [present, addServiceSt]

theorem present_addRouteSt {st : RemoteState} {r : KongRoute} {k : RKey}
    (h : present st k = true) : present (addRouteSt st r) k = true := by
  cases k <;> simp_all [present, addRouteSt]

theorem present_addRouteSt_self (st : RemoteState) (r : KongRoute) :
    present (addRouteSt st r) (.rt r.name) = true := by
  simp [present, addRouteSt]

theorem present_addTargetSt {st : RemoteState} {u a : String} {w : Int} {k : RKey}
    (h : present st k = true) : present (addTargetSt st u a w) k = true := by
  cases k <;> simp_all [present, addTargetSt]

theorem present_addTargetSt_self (st : RemoteState) (u a : String) (w : Int) :
    present (addTargetSt st u a w) (.tgt u a) = true := by
  simp [present, addTargetSt]

theorem present_patchSvcUpSt (st : RemoteState) (n upName proto : String) (port : Int)
    (path : String) (k : RKey) :
    present (patchSvcUpSt st n upName proto port path) k = present st k := by
  cases k with
  | up m => simp [present, patchSvcUpSt]
  | svc m =>
    simp only [present, patchSvcUpSt]
    exact any_name_map _ _ _ (fun x => by split <;> rfl) m
  | rt m => simp [present, patchSvcUpSt]
  | tgt u a => simp [present, patchSvcUpSt]

theorem present_patchSvcUrlSt (st : RemoteState) (n url : String) (k : RKey) :
    present (patchSvcUrlSt st n url) k = present st k := by
  cases k with
  | up m => simp [present, patchSvcUrlSt]
  | svc m =>
    simp only [present, patchSvcUrlSt]
    exact any_name_map _ _ _ (fun x => by split <;> rfl) m
  | rt m => simp [present, patchSvcUrlSt]
  | tgt u a => simp [present, patchSvcUrlSt]

theorem present_patchSvcExtrasSt (st : RemoteState) (n : String) (a b c d : Int)
    (k : RKey) : present (patchSvcExtrasSt st n a b c d) k = present st k := by
  cases k with
  | up m => simp [present, patchSvcExtrasSt]
  | svc m =>
    simp only [present, patchSvcExtrasSt]
    exact any_name_map _ _ _ (fun x => by split <;> rfl) m
  | rt m => simp [present, patchSvcExtrasSt]
  | tgt u a => simp [present, patchSvcExtrasSt]

theorem present_patchRouteSt (st : RemoteState) (n : String) (patched : KongRoute)
    (hn : patched.name = n) (k : RKey) :
    present (patchRouteSt st n patched) k = present st k := by
  cases k with
  | up m => simp [present, patchRouteSt]
  | svc m => simp [present, patchRouteSt]
  | rt m =>
    simp only [present, patchRouteSt]
    refine any_name_map _ _ _ (fun x => ?_) m
    split
    · rename_i hx
      rw [hn]
      exact (beq_iff_eq.mp hx).symm ▸ rfl
    · rfl
  | tgt u a => simp [present, patchRouteSt]

theorem present_svc_of_find_none {st : RemoteState} {n : String}
    (h : findService st n = none) : present st (.svc n) = false := by
  simp only [present]
  rw [List.any_eq_false]
  intro x hx
  have := List.find?_eq_none.mp h x hx
  simpa using this

theorem present_rt_of_find_none {st : RemoteState} {n : String}
    (h : findRoute st n = none) : present st (.rt n) = false := by
  simp only [present]
  rw [List.any_eq_false]
  intro x hx
  have := List.find?_eq_none.mp h x hx
  simpa using this

theorem present_up_of_contains_false {st : RemoteState} {n : String}
    (h : st.upstreams.contains n = false) : present st (.up n) = false := h

theorem present_tgt_of_find_none {st : RemoteState} {up addr : String}
    (h : (targetsOf st up).find? (fun p => p.1 == addr) = none) :
    present st (.tgt up addr) = false := by
  simp only [present]
  rw [List.any_eq_false]
  intro x hx
  by_cases hu : x.1 == up
  · have hmem : x.2 ∈ targetsOf st up := by
      simp only [targetsOf]
      exact List.mem_map_of_mem _ (List.mem_filter.mpr ⟨hx, hu⟩)
    have := List.find?_eq_none.mp h x.2 hmem
    simp_all
  · simp_all

theorem targets_any_false_of_find_none {st : RemoteState} {up addr : String}
    (h : (targetsOf st up).find? (fun p => p.1 == addr) = none) (q : String × Int → Bool) :
    (targetsOf st up).any (fun p => p.1 == addr && q p) = false := by
  rw [List.any_eq_false]
  intro p hp
  have := List.find?_eq_none.mp h p hp
  simp_all

theorem targets_find_none_iff (st : RemoteState) (up addr : String) :
    ((targetsOf st up).find? (fun p => p.1 == addr) = none) ↔
      present st (.tgt up addr) = false := by
  constructor
  · exact present_tgt_of_find_none
  · intro h
    rw [List.find?_eq_none]
    intro p hp
    simp only [targetsOf, List.mem_map, List.mem_filter] at hp
    obtain ⟨x, ⟨hx, hxu⟩, rfl⟩ := hp
    simp only [present] at h
    rw [List.any_eq_false] at h
    have := h x hx
    simp_all

theorem strIsEmptyAppend (a b : String) (h : b ≠ "") : a ++ b ≠ "" := by
  intro hc
  apply h
  have hd : (a ++ b).data = [] := by rw [hc]
  rw [String.data_append] at hd
  have := List.append_eq_nil.mp hd
  cases b
  simp_all

theorem autoSvcName_ne (r : ApplyRoute) (name : String) : autoSvcName r name ≠ "" := by
  unfold autoSvcName
  split
  · exact strIsEmptyAppend name "-service" (by decide)
  · simp_all

theorem autoUpName_ne (r : ApplyRoute) (name : String) : autoUpName r name ≠ "" := by
  unfold autoUpName
  split
  · exact strIsEmptyAppend name "-upstream" (by decide)
  · simp_all

theorem backendProto_ne (b : RouteBackend) : backendProto b ≠ "" := by
  unfold backendProto
  split <;> simp_all

theorem backendPort_ne (b : RouteBackend) : (backendPort b == 0) = false := by
  unfold backendPort
  by_cases h : (b.port == 0) = true
  · simp only [h, if_true]
    split <;> decide
  · simp [h]

theorem ensureUpstreamExecCreate (ov : Bool) (fl : FailSet) (n : String)
    (st : RemoteState) (hfl : fl.up n = false) (hn : n ≠ "")
    (habs : st.upstreams.contains n = false) :
    ensureUpstreamBlock false ov fl n st =
      .ok (addUpstreamSt st n,
           [Ev.getUpstream n, Ev.getUpstream n, Ev.createUpstream n]) := by
  have habs' : ¬ n ∈ st.upstreams := by simpa using habs
  simp [ensureUpstreamBlock, hfl, hn, habs', withEvs, createOrUpdateUpstream]

theorem targetBlockCreate (ov : Bool) (up : String) (t : ApplyTarget)
    (st : RemoteState) (hup : up ≠ "") (ht : t.target ≠ "")
    (habs : present st (.tgt up t.target) = false) :
    targetBlock false ov noFail up t st =
      .ok (addTargetSt st up t.target (normWeight t.weight),
           [Ev.listTargets up, Ev.listTargets up,
            Ev.addTarget up t.target (normWeight t.weight)]) := by
  have hfind : (targetsOf st up).find? (fun p => p.1 == t.target) = none :=
    (targets_find_none_iff st up t.target).mpr habs
  have hany : ∀ q : String × Int → Bool,
      (targetsOf st up).any (fun p => p.1 == t.target && q p) = false :=
    targets_any_false_of_find_none hfind
  simp [targetBlock, noFail, hfind, withEvs, ensureTarget, hany, hup, ht]

theorem present_addTargetSt_other {st : RemoteState} {u a u' a' : String} {w : Int}
    (h : present st (.tgt u' a') = false) (hne : (a' == a) = false) :
    present (addTargetSt st u a w) (.tgt u' a') = false := by
  have hne' : ¬ (a = a') := by
    intro hc
    subst hc
    simp at hne
  have h' : st.targets.any (fun x => x.1 == u' && x.2.1 == a') = false := h
  simp only [present, addTargetSt, List.any_append, h', Bool.false_or]
  simp [hne']

theorem targetsLoopCreates (ov : Bool) (up : String) (ts : List ApplyTarget)
    (st : RemoteState) (hup : up ≠ "")
    (ht : ∀ t ∈ ts, t.target ≠ "")
    (habs : ∀ t ∈ ts, present st (.tgt up t.target) = false)
    (hnd : (ts.map (fun t => t.target)).Nodup) :
    targetsLoop false ov noFail up ts st =
      .ok ({ st with targets :=
               st.targets ++ ts.map (fun t => (up, t.target, normWeight t.weight)) },
           (ts.map (fun t => [Ev.listTargets up, Ev.listTargets up,
              Ev.addTarget up t.target (normWeight t.weight)])).flatten) := by
  induction ts generalizing st with
  | nil => simp [targetsLoop]
  | cons t ts ih =>
    have h1 := targetBlockCreate ov up t st hup (ht t (by simp))
      (habs t (by simp))
    have habs' : ∀ t' ∈ ts, present (addTargetSt st up t.target (normWeight t.weight))
        (.tgt up t'.target) = false := by
      intro t' ht'
      have hne : (t'.target == t.target) = false := by
        simp only [List.map_cons, List.nodup_cons] at hnd
        rw [beq_eq_false_iff_ne]
        intro hc
        exact hnd.1 (hc ▸ List.mem_map_of_mem (fun t => t.target) ht')
      exact present_addTargetSt_other (habs t' (List.mem_cons_of_mem t ht')) hne
    have h2 := ih (addTargetSt st up t.target (normWeight t.weight))
      (fun t' ht' => ht t' (List.mem_cons_of_mem t ht')) habs'
      (by simp only [List.map_cons, List.nodup_cons] at hnd; exact hnd.2)
    simp only [addTargetSt] at h1 h2
    simp only [targetsLoop, stepSeq, h1, h2]
    simp [List.append_assoc]

theorem autoServiceSyncCreate (ov : Bool) (svcName upName : String) (b : RouteBackend)
    (st : RemoteState) (hs : svcName ≠ "") (hu : upName ≠ "")
    (habs : findService st svcName = none) :
    autoServiceSync false ov noFail svcName upName b st =
      .ok (addServiceSt st
             { id := svcName, name := svcName, protocol := backendProto b,
               host := upName, port := backendPort b, path := b.path },
           [Ev.getService svcName, Ev.getService svcName,
            Ev.createService
              { id := svcName, name := svcName, protocol := backendProto b,
                host := upName, port := backendPort b, path := b.path }]) := by
  simp [autoServiceSync, noFail, habs, withEvs, createOrUpdateServiceViaUpstream,
    hs, hu, backendProto_ne b, backendPort_ne b]

theorem routeSyncCreate (ov : Bool) (r : ApplyRoute) (name : String)
    (svc : KongService) (st : RemoteState)
    (hname : name ≠ "") (hsvc : r.service ≠ "")
    (hph : (phNorm r != "" && phNorm r != "v0" && phNorm r != "v1") = false)
    (habs : findRoute st name = none)
    (hsvcfound : findService st r.service = some svc) :
    routeSync false ov noFail r name st =
      .ok (addRouteSt st { mkDesired r name (phNorm r) with serviceId := svc.id },
           [Ev.getRoute name, Ev.getService r.service, Ev.getRoute name,
            Ev.createRoute { mkDesired r name (phNorm r) with serviceId := svc.id }]) := by
  have hdesName : (mkDesired r name (phNorm r)).name = name := rfl
  have hdesSvc : (mkDesired r name (phNorm r)).serviceName = r.service := rfl
  have hdesId : (mkDesired r name (phNorm r)).serviceId = "" := rfl
  simp [routeSync, hph, habs, noFail, withEvs, createOrUpdateRoute,
    createOrUpdateRouteResolved, hname, hsvc, hsvcfound, hdesName, hdesSvc, hdesId]

/-- C2: shorthand expansion, end to end.  For any route carrying a name but
no service reference (with a valid `path_handling`, nonempty and pairwise
distinct target addresses — the document invariant of names unique per kind),
executing the document against an empty remote deterministically creates an
Upstream named `override ?? "<route>-upstream"`, registers every backend
target under it with weight `normWeight` (100 when absent or zero), creates a
Service named `override ?? "<route>-service"` bound to that upstream with
protocol defaulting to http and port defaulting to 80 (443 for https) and the
backend's path, and creates the route with its service reference rewritten to
the synthesized service name. -/
theorem c2_shorthand_expansion (ov : Bool) (r : ApplyRoute)
    (hsvc : r.service = "") (hname : r.name ≠ "")
    (hph : (phNorm r != "" && phNorm r != "v0" && phNorm r != "v1") = false)
    (hts : ∀ t ∈ r.backend.targets, t.target ≠ "")
    (hnd : (r.backend.targets.map (fun t => t.target)).Nodup) :
    applyRun false ov noFail { routes := [r] } {} =
      .ok
        ({ upstreams := [autoUpName r r.name],
           services := [{ id := autoSvcName r r.name, name := autoSvcName r r.name,
                          protocol := backendProto r.backend,
                          host := autoUpName r r.name,
                          port := backendPort r.backend, path := r.backend.path }],
           routes := [{ mkDesired { r with service := autoSvcName r r.name } r.name
                          (phNorm r) with serviceId := autoSvcName r r.name }],
           targets := r.backend.targets.map
             (fun t => (autoUpName r r.name, t.target, normWeight t.weight)) },
         [Ev.getUpstream (autoUpName r r.name), Ev.getUpstream (autoUpName r r.name),
          Ev.createUpstream (autoUpName r r.name)] ++
         (r.backend.targets.map (fun t =>
            [Ev.listTargets (autoUpName r r.name), Ev.listTargets (autoUpName r r.name),
             Ev.addTarget (autoUpName r r.name) t.target (normWeight t.weight)])).flatten ++
         [Ev.getService (autoSvcName r r.name), Ev.getService (autoSvcName r r.name),
          Ev.createService { id := autoSvcName r r.name, name := autoSvcName r r.name,
                             protocol := backendProto r.backend,
                             host := autoUpName r r.name,
                             port := backendPort r.backend, path := r.backend.path }] ++
         [Ev.getRoute r.name, Ev.getService (autoSvcName r r.name), Ev.getRoute r.name,
          Ev.createRoute { mkDesired { r with service := autoSvcName r r.name } r.name
                             (phNorm r) with serviceId := autoSvcName r r.name }]) := by
  have hrn : routeName r = r.name := by
    simp [routeName, hname]
  have hcond : (r.service == "") = true := by simp [hsvc]
  have hcond2 : (r.name == "") = false := by simp [hname]
  have h1 := ensureUpstreamExecCreate ov noFail (autoUpName r r.name) {} rfl
    (autoUpName_ne r r.name) rfl
  have h2 := targetsLoopCreates ov (autoUpName r r.name) r.backend.targets
    (addUpstreamSt {} (autoUpName r r.name)) (autoUpName_ne r r.name) hts
    (fun t _ => rfl) hnd
  have h3 := autoServiceSyncCreate ov (autoSvcName r r.name) (autoUpName r r.name)
    r.backend
    { addUpstreamSt {} (autoUpName r r.name) with
      targets := (addUpstreamSt {} (autoUpName r r.name)).targets ++
        r.backend.targets.map
          (fun t => (autoUpName r r.name, t.target, normWeight t.weight)) }
    (autoSvcName_ne r r.name) (autoUpName_ne r r.name) rfl
  have h4 := routeSyncCreate ov { r with service := autoSvcName r r.name } r.name
    { id := autoSvcName r r.name, name := autoSvcName r r.name,
      protocol := backendProto r.backend, host := autoUpName r r.name,
      port := backendPort r.backend, path := r.backend.path }
    (addServiceSt
      { addUpstreamSt {} (autoUpName r r.name) with
        targets := (addUpstreamSt {} (autoUpName r r.name)).targets ++
          r.backend.targets.map
            (fun t => (autoUpName r r.name, t.target, normWeight t.weight)) }
      { id := autoSvcName r r.name, name := autoSvcName r r.name,
        protocol := backendProto r.backend, host := autoUpName r r.name,
        port := backendPort r.backend, path := r.backend.path })
    hname (autoSvcName_ne r r.name) hph rfl
    (by simp [findService, addServiceSt, addUpstreamSt])
  simp only [applyRun, runUpstreams, runServices, runRoutes, routeBlock, stepSeq,
    hrn, hcond, hcond2, if_true, if_false, Bool.false_eq_true]
  simp only [h1, h2, h3, h4]
  simp [addUpstreamSt, addServiceSt, addRouteSt, mkDesired]
  rfl

/-- C2 witness: the spec's `demo` example. -/
theorem c2_shorthand_expansion_witness :
    (let r : ApplyRoute := { name := "demo", paths := ["/demo"],
                             backend := { targets := [{ target := "a:80" }] } }
     applyRun false false noFail { routes := [r] } {} =
       .ok
         ({ upstreams := ["demo-upstream"],
            services := [{ id := "demo-service", name := "demo-service",
                           protocol := "http", host := "demo-upstream", port := 80 }],
            routes := [{ name := "demo", paths := ["/demo"], stripPath := some true,
                         serviceName := "demo-service", serviceId := "demo-service" }],
            targets := [("demo-upstream", "a:80", 100)] },
          [Ev.getUpstream "demo-upstream", Ev.getUpstream "demo-upstream",
           Ev.createUpstream "demo-upstream",
           Ev.listTargets "demo-upstream", Ev.listTargets "demo-upstream",
           Ev.addTarget "demo-upstream" "a:80" 100,
           Ev.getService "demo-service", Ev.getService "demo-service",
           Ev.createService { id := "demo-service", name := "demo-service",
                              protocol := "http", host := "demo-upstream", port := 80 },
           Ev.getRoute "demo", Ev.getService "demo-service", Ev.getRoute "demo",
           Ev.createRoute { name := "demo", paths := ["/demo"], stripPath := some true,
                            serviceName := "demo-service",
                            serviceId := "demo-service" }])) := by
  have h := c2_shorthand_expansion false
    { name := "demo", paths := ["/demo"], backend := { targets := [{ target := "a:80" }] } }
    rfl (by decide) (by decide) (by decide) (by decide)
  exact h.trans (by rfl)

/-! ### Idempotence of the executing pipeline (claim C4)

With override disabled the pipeline only ever mutates a resource it has just
verified absent: `SoundConcl` records that a step (i) only grows the set of
present resources, (ii) issues keyed (mutating) calls only for keys absent in
its start state, and (iii) leaves every key it created present. -/

/-- Soundness of one step outcome: presence grows, mutating calls target
keys absent at the start, created keys are present at the end. -/
def SoundConcl (st st1 : RemoteState) (tr : List Ev) : Prop :=
  (∀ k, present st k = true → present st1 k = true) ∧
  (∀ e ∈ tr, ∀ k, evKey e = some k → present st k = false) ∧
  (∀ e ∈ tr, isCreateEv e = true → ∀ k, evKey e = some k → present st1 k = true)

/-- A step is sound when every successful outcome satisfies `SoundConcl`. -/
def Sound (f : Step) : Prop :=
  ∀ st st1 tr, f st = .ok (st1, tr) → SoundConcl st st1 tr

theorem soundConcl_id {st : RemoteState} {tr : List Ev}
    (h : ∀ e ∈ tr, evKey e = none) : SoundConcl st st tr := by
  refine ⟨fun k hk => hk, fun e he k hk => ?_, fun e he _ k hk => ?_⟩ <;>
    · rw [h e he] at hk; cases hk

theorem soundConcl_seq {st st1 st2 : RemoteState} {tr1 tr2 : List Ev}
    (h1 : SoundConcl st st1 tr1) (h2 : SoundConcl st1 st2 tr2) :
    SoundConcl st st2 (tr1 ++ tr2) := by
  obtain ⟨m1, a1, c1⟩ := h1
  obtain ⟨m2, a2, c2⟩ := h2
  refine ⟨fun k hk => m2 k (m1 k hk), ?_, ?_⟩
  · intro e he k hk
    rcases List.mem_append.mp he with h | h
    · exact a1 e h k hk
    · by_contra hc
      rw [Bool.not_eq_false] at hc
      have hp := m1 k hc
      rw [a2 e h k hk] at hp
      cases hp
  · intro e he hcr k hk
    rcases List.mem_append.mp he with h | h
    · exact m2 k (c1 e h hcr k hk)
    · exact c2 e h hcr k hk

theorem sound_seq {f g : Step} (hf : Sound f) (hg : Sound g) : Sound (stepSeq f g) := by
  intro st st2 tr h
  unfold stepSeq at h
  rcases hfst : f st with p | ⟨st1, tr1⟩ <;> simp only [hfst] at h
  · cases h
  · rcases hgst : g st1 with ⟨e2, tr2⟩ | ⟨st2', tr2⟩ <;> simp only [hgst] at h
    · cases h
    · obtain ⟨rfl, rfl⟩ := h
      exact soundConcl_seq (hf _ _ _ hfst) (hg _ _ _ hgst)

theorem soundConcl_withEvs {f : Step} {evs : List Ev} {st st1 : RemoteState} {tr : List Ev}
    (hevs : ∀ e ∈ evs, evKey e = none)
    (hf : ∀ st1' tr', f st = .ok (st1', tr') → SoundConcl st st1' tr')
    (h : withEvs evs f st = .ok (st1, tr)) : SoundConcl st st1 tr := by
  unfold withEvs at h
  rcases hfst : f st with ⟨e2, tr2⟩ | ⟨st2, tr2⟩ <;> simp only [hfst] at h
  · cases h
  · obtain ⟨rfl, rfl⟩ := h
    exact soundConcl_seq (soundConcl_id hevs) (hf _ _ hfst)

theorem sound_createOrUpdateUpstream (fl : FailSet) (n : String) :
    Sound (createOrUpdateUpstream fl n) := by
  intro st st1 tr h
  unfold createOrUpdateUpstream at h
  split at h
  · cases h
  · split at h
    · cases h
    · split at h
      · obtain ⟨rfl, rfl⟩ := by simpa using h
        exact soundConcl_id (by intro e he; fin_cases he <;> rfl)
      · rename_i hne hfl habs
        obtain ⟨rfl, rfl⟩ := by simpa using h
        refine ⟨fun k hk => present_addUpstreamSt hk, ?_, ?_⟩
        · intro e he k hk
          fin_cases he
          · cases hk
          · obtain rfl : RKey.up n = k := by simpa [evKey] using hk
            exact present_up_of_contains_false (by simpa using habs)
        · intro e he hcr k hk
          fin_cases he
          · cases hk
          · obtain rfl : RKey.up n = k := by simpa [evKey] using hk
            exact present_addUpstreamSt_self st n

theorem soundConcl_createSvcViaUp_absent {fl : FailSet} {n upName proto0 : String}
    {port0 : Int} {path : String} {st st1 : RemoteState} {tr : List Ev}
    (habs : findService st n = none)
    (h : createOrUpdateServiceViaUpstream fl n upName proto0 port0 path st =
      .ok (st1, tr)) : SoundConcl st st1 tr := by
  unfold createOrUpdateServiceViaUpstream at h
  rcases h1 : (n == "" || upName == "") with _ | _
  · rw [h1] at h
    simp only [Bool.false_eq_true, if_false] at h
    rcases h2 : fl.svc n with _ | _
    · rw [h2] at h
      simp only [Bool.false_eq_true, if_false] at h
      rw [habs] at h
      obtain ⟨rfl, rfl⟩ := by simpa using h
      refine ⟨fun k hk => present_addServiceSt hk, ?_, ?_⟩
      · intro e he k hk
        fin_cases he
        · cases hk
        · obtain rfl : RKey.svc n = k := by simpa [evKey] using hk
          exact present_svc_of_find_none habs
      · intro e he hcr k hk
        fin_cases he
        · cases hk
        · obtain rfl : RKey.svc n = k := by simpa [evKey] using hk
          exact present_addServiceSt_self st _
    · rw [h2] at h
      simp at h
  · rw [h1] at h
    simp at h

theorem soundConcl_createOrUpdateService_absent {fl : FailSet} {n url : String}
    {st st1 : RemoteState} {tr : List Ev}
    (habs : findService st n = none)
    (h : createOrUpdateService fl n url st = .ok (st1, tr)) : SoundConcl st st1 tr := by
  unfold createOrUpdateService at h
  split at h
  · cases h
  · split at h
    · cases h
    · rw [habs] at h
      obtain ⟨rfl, rfl⟩ := by simpa using h
      refine ⟨fun k hk => present_addServiceSt hk, ?_, ?_⟩
      · intro e he k hk
        fin_cases he
        · cases hk
        · obtain rfl : RKey.svc n = k := by simpa [evKey] using hk
          exact present_svc_of_find_none habs
      · intro e he hcr k hk
        fin_cases he
        · cases hk
        · obtain rfl : RKey.svc n = k := by simpa [evKey] using hk
          exact present_addServiceSt_self st _

theorem soundConcl_updateServiceExtras_absent {fl : FailSet} {n : String}
    {a b c d : Int} {st st1 : RemoteState} {tr : List Ev}
    (habs : present st (.svc n) = false)
    (h : updateServiceExtras fl n a b c d st = .ok (st1, tr)) : SoundConcl st st1 tr := by
  unfold updateServiceExtras at h
  split at h
  · obtain ⟨rfl, rfl⟩ := by simpa using h
    exact soundConcl_id (by intro e he; cases he)
  · obtain ⟨rfl, rfl⟩ := by simpa using h
    refine ⟨fun k hk => by rwa [present_patchSvcExtrasSt], ?_, ?_⟩
    · intro e he k hk
      fin_cases he
      obtain rfl : RKey.svc n = k := by simpa [evKey] using hk
      exact habs
    · intro e he hcr k hk
      fin_cases he
      cases hcr

theorem soundConcl_createOrUpdateRouteResolved_absent {fl : FailSet}
    {desired : KongRoute} {st st1 : RemoteState} {tr : List Ev}
    (habs : findRoute st desired.name = none)
    (h : createOrUpdateRouteResolved fl desired st = .ok (st1, tr)) :
    SoundConcl st st1 tr := by
  unfold createOrUpdateRouteResolved at h
  split at h
  · cases h
  · rw [habs] at h
    obtain ⟨rfl, rfl⟩ := by simpa using h
    refine ⟨fun k hk => present_addRouteSt hk, ?_, ?_⟩
    · intro e he k hk
      fin_cases he
      · cases hk
      · obtain rfl : RKey.rt desired.name = k := by simpa [evKey] using hk
        exact present_rt_of_find_none habs
    · intro e he hcr k hk
      fin_cases he
      · cases hk
      · obtain rfl : RKey.rt desired.name = k := by simpa [evKey] using hk
        exact present_addRouteSt_self st _

theorem soundConcl_createOrUpdateRoute_absent {fl : FailSet} {desired : KongRoute}
    {st st1 : RemoteState} {tr : List Ev}
    (habs : findRoute st desired.name = none)
    (h : createOrUpdateRoute fl desired st = .ok (st1, tr)) : SoundConcl st st1 tr := by
  unfold createOrUpdateRoute at h
  split at h
  · cases h
  · split at h
    · split at h
      · cases h
      · split at h
        · cases h
        · refine soundConcl_withEvs (by intro e he; fin_cases he; rfl) ?_ h
          intro st1' tr' h'
          exact soundConcl_createOrUpdateRouteResolved_absent (by exact habs) h'
    · split at h
      · cases h
      · exact soundConcl_createOrUpdateRouteResolved_absent habs h

theorem soundConcl_ensureTarget_absent {fl : FailSet} {up addr : String} {w : Int}
    {st st1 : RemoteState} {tr : List Ev}
    (hfind : (targetsOf st up).find? (fun p => p.1 == addr) = none)
    (h : ensureTarget fl up addr w st = .ok (st1, tr)) : SoundConcl st st1 tr := by
  unfold ensureTarget at h
  split at h
  · cases h
  · rw [targets_any_false_of_find_none hfind] at h
    simp only [Bool.false_eq_true, if_false] at h
    split at h
    · cases h
    · obtain ⟨rfl, rfl⟩ := by simpa using h
      refine ⟨fun k hk => present_addTargetSt hk, ?_, ?_⟩
      · intro e he k hk
        fin_cases he
        · cases hk
        · obtain rfl : RKey.tgt up addr = k := by simpa [evKey] using hk
          exact present_tgt_of_find_none hfind
      · intro e he hcr k hk
        fin_cases he
        · cases hk
        · obtain rfl : RKey.tgt up addr = k := by simpa [evKey] using hk
          exact present_addTargetSt_self st up addr w

theorem sound_ensureUpstreamBlock (dr ov : Bool) (fl : FailSet) (n : String) :
    Sound (ensureUpstreamBlock dr ov fl n) := by
  intro st st1 tr h
  unfold ensureUpstreamBlock at h
  split at h
  · split at h
    · obtain ⟨rfl, rfl⟩ := by simpa using h
      exact soundConcl_id (by intro e he; fin_cases he <;> rfl)
    · obtain ⟨rfl, rfl⟩ := by simpa using h
      exact soundConcl_id (by intro e he; fin_cases he <;> rfl)
  · split at h
    · cases h
    · split at h
      · exact soundConcl_withEvs (by intro e he; fin_cases he; rfl)
          (fun st1' tr' h' => sound_createOrUpdateUpstream fl n st st1' tr' h') h
      · split at h
        · exact soundConcl_withEvs (by intro e he; fin_cases he; rfl)
            (fun st1' tr' h' => sound_createOrUpdateUpstream fl n st st1' tr' h') h
        · obtain ⟨rfl, rfl⟩ := by simpa using h
          exact soundConcl_id (by intro e he; fin_cases he <;> rfl)

theorem sound_targetBlock (dr : Bool) (fl : FailSet) (up : String) (t : ApplyTarget) :
    Sound (targetBlock dr false fl up t) := by
  intro st st1 tr h
  unfold targetBlock at h
  split at h
  · split at h
    · obtain ⟨rfl, rfl⟩ := by simpa using h
      exact soundConcl_id (by intro e he; fin_cases he <;> rfl)
    · obtain ⟨rfl, rfl⟩ := by simpa using h
      exact soundConcl_id (by intro e he; fin_cases he <;> rfl)
  · split at h
    · cases h
    · split at h
      · rename_i hfind
        exact soundConcl_withEvs (by intro e he; fin_cases he; rfl)
          (fun st1' tr' h' => soundConcl_ensureTarget_absent hfind h') h
      · split at h
        · obtain ⟨rfl, rfl⟩ := by simpa using h
          exact soundConcl_id (by intro e he; fin_cases he <;> rfl)
        · simp only [Bool.false_eq_true, if_false] at h
          obtain ⟨rfl, rfl⟩ := by simpa using h
          exact soundConcl_id (by intro e he; fin_cases he <;> rfl)

theorem sound_targetsLoop (dr : Bool) (fl : FailSet) (up : String)
    (ts : List ApplyTarget) : Sound (targetsLoop dr false fl up ts) := by
  induction ts with
  | nil =>
    intro st st1 tr h
    obtain ⟨rfl, rfl⟩ := by simpa [targetsLoop] using h
    exact soundConcl_id (by intro e he; cases he)
  | cons t ts ih => exact sound_seq (sound_targetBlock dr fl up t) ih

theorem sound_upstreamEntryBlock (dr : Bool) (fl : FailSet) (u : ApplyUpstream) :
    Sound (upstreamEntryBlock dr false fl u) := by
  intro st st1 tr h
  unfold upstreamEntryBlock at h
  split at h
  · cases h
  · exact sound_seq (sound_ensureUpstreamBlock dr false fl u.name)
      (sound_targetsLoop dr fl u.name u.targets) st st1 tr h

theorem soundConcl_seq_orig {st st1 st2 : RemoteState} {tr1 tr2 : List Ev}
    (h1 : SoundConcl st st1 tr1)
    (hmono : ∀ k, present st1 k = true → present st2 k = true)
    (habs : ∀ e ∈ tr2, ∀ k, evKey e = some k → present st k = false)
    (hcr : ∀ e ∈ tr2, isCreateEv e = true → ∀ k, evKey e = some k → present st2 k = true) :
    SoundConcl st st2 (tr1 ++ tr2) := by
  obtain ⟨m1, a1, c1⟩ := h1
  refine ⟨fun k hk => hmono k (m1 k hk), ?_, ?_⟩
  · intro e he k hk
    rcases List.mem_append.mp he with h | h
    · exact a1 e h k hk
    · exact habs e h k hk
  · intro e he hc k hk
    rcases List.mem_append.mp he with h | h
    · exact hmono k (c1 e h hc k hk)
    · exact hcr e h hc k hk

theorem soundConcl_after_extras {fl : FailSet} {n : String} {a b c d : Int}
    {st stA st2 : RemoteState} {tr2 : List Ev}
    (habs : present st (.svc n) = false)
    (h : updateServiceExtras fl n a b c d stA = .ok (st2, tr2)) :
    (∀ k, present stA k = true → present st2 k = true) ∧
    (∀ e ∈ tr2, ∀ k, evKey e = some k → present st k = false) ∧
    (∀ e ∈ tr2, isCreateEv e = true → ∀ k, evKey e = some k → present st2 k = true) := by
  unfold updateServiceExtras at h
  split at h
  · obtain ⟨rfl, rfl⟩ := by simpa using h
    refine ⟨fun k hk => hk, ?_, ?_⟩ <;> intro e he <;> cases he
  · obtain ⟨rfl, rfl⟩ := by simpa using h
    refine ⟨fun k hk => by rwa [present_patchSvcExtrasSt], ?_, ?_⟩
    · intro e he k hk
      fin_cases he
      obtain rfl : RKey.svc n = k := by simpa [evKey] using hk
      exact habs
    · intro e he hc k hk
      fin_cases he
      cases hc

theorem sound_serviceSyncViaUpstream (dr : Bool) (fl : FailSet) (s : ApplyService) :
    Sound (serviceSyncViaUpstream dr false fl s) := by
  intro st st1 tr h
  unfold serviceSyncViaUpstream at h
  split at h
  · split at h
    · obtain ⟨rfl, rfl⟩ := by simpa using h
      exact soundConcl_id (by intro e he; fin_cases he <;> rfl)
    · split at h
      · obtain ⟨rfl, rfl⟩ := by simpa using h
        exact soundConcl_id (by intro e he; fin_cases he <;> rfl)
      · obtain ⟨rfl, rfl⟩ := by simpa using h
        exact soundConcl_id (by intro e he; fin_cases he <;> rfl)
  · split at h
    · cases h
    · split at h
      · rename_i habs
        refine soundConcl_withEvs (by intro e he; fin_cases he; rfl) ?_ h
        intro st1' tr' h'
        unfold stepSeq at h'
        rcases h1 : createOrUpdateServiceViaUpstream fl s.name s.upstream (svcProto s)
            (svcPort s) s.path st with p | ⟨stA, trA⟩ <;> simp only [h1] at h'
        · cases h'
        · have hA := soundConcl_createSvcViaUp_absent habs h1
          rcases hP : (decide (0 < s.retries) || decide (0 < s.connectTimeout) ||
              decide (0 < s.readTimeout) || decide (0 < s.writeTimeout)) with _ | _
          · rw [hP] at h'
            simp only [Bool.false_eq_true, if_false] at h'
            obtain ⟨rfl, rfl⟩ := by simpa using h'
            simpa using hA
          · rw [hP] at h'
            simp only [if_true] at h'
            rcases h2 : updateServiceExtras fl s.name s.retries s.connectTimeout
                s.readTimeout s.writeTimeout stA with p | ⟨stB, trB⟩ <;>
              simp only [h2] at h'
            · cases h'
            · obtain ⟨rfl, rfl⟩ := h'
              obtain ⟨hm, ha, hc⟩ :=
                soundConcl_after_extras (present_svc_of_find_none habs) h2
              exact soundConcl_seq_orig hA hm ha hc
      · rename_i cur hfound
        refine soundConcl_withEvs (by intro e he; fin_cases he; rfl) ?_ h
        intro st1' tr' h'
        unfold stepSeq at h'
        rcases hc1 : svcCoreChanged cur s.upstream (svcProto s) (svcPort s) s.path
            with _ | _ <;>
          rcases hc2 : svcExtrasChanged cur s with _ | _ <;>
          rw [hc1, hc2] at h' <;>
          simp only [Bool.false_eq_true, if_false, if_true] at h'
        all_goals obtain ⟨rfl, rfl⟩ := by simpa using h'
        all_goals exact soundConcl_id (by intro e he; fin_cases he <;> rfl)

theorem sound_serviceUpstreamBlock (dr : Bool) (fl : FailSet) (s : ApplyService) :
    Sound (serviceUpstreamBlock dr false fl s) :=
  sound_seq (sound_ensureUpstreamBlock dr false fl s.upstream)
    (sound_seq (sound_targetsLoop dr fl s.upstream s.targets)
      (sound_serviceSyncViaUpstream dr fl s))

theorem sound_serviceUrlBlock (dr : Bool) (fl : FailSet) (s : ApplyService) :
    Sound (serviceUrlBlock dr false fl s) := by
  intro st st1 tr h
  unfold serviceUrlBlock at h
  split at h
  · cases h
  · split at h
    · split at h
      · obtain ⟨rfl, rfl⟩ := by simpa using h
        exact soundConcl_id (by intro e he; fin_cases he <;> rfl)
      · split at h
        · obtain ⟨rfl, rfl⟩ := by simpa using h
          exact soundConcl_id (by intro e he; fin_cases he <;> rfl)
        · obtain ⟨rfl, rfl⟩ := by simpa using h
          exact soundConcl_id (by intro e he; fin_cases he <;> rfl)
    · split at h
      · cases h
      · split at h
        · rename_i habs
          refine soundConcl_withEvs (by intro e he; fin_cases he; rfl) ?_ h
          intro st1' tr' h'
          unfold stepSeq at h'
          rcases h1 : createOrUpdateService fl s.name s.url st with p | ⟨stA, trA⟩ <;>
            simp only [h1] at h'
          · cases h'
          · have hA := soundConcl_createOrUpdateService_absent habs h1
            rcases hP : (decide (0 < s.retries) || decide (0 < s.connectTimeout) ||
                decide (0 < s.readTimeout) || decide (0 < s.writeTimeout)) with _ | _
            · rw [hP] at h'
              simp only [Bool.false_eq_true, if_false] at h'
              obtain ⟨rfl, rfl⟩ := by simpa using h'
              simpa using hA
            · rw [hP] at h'
              simp only [if_true] at h'
              rcases h2 : updateServiceExtras fl s.name s.retries s.connectTimeout
                  s.readTimeout s.writeTimeout stA with p | ⟨stB, trB⟩ <;>
                simp only [h2] at h'
              · cases h'
              · obtain ⟨rfl, rfl⟩ := h'
                obtain ⟨hm, ha, hc⟩ :=
                  soundConcl_after_extras (present_svc_of_find_none habs) h2
                exact soundConcl_seq_orig hA hm ha hc
        · rename_i cur hfound
          refine soundConcl_withEvs (by intro e he; fin_cases he; rfl) ?_ h
          intro st1' tr' h'
          unfold stepSeq at h'
          rcases hc1 : (reconstructURL cur != s.url) with _ | _ <;>
            rcases hc2 : svcExtrasChanged cur s with _ | _ <;>
            rw [hc1, hc2] at h' <;>
            simp only [Bool.false_eq_true, if_false, if_true] at h'
          all_goals obtain ⟨rfl, rfl⟩ := by simpa using h'
          all_goals exact soundConcl_id (by intro e he; fin_cases he <;> rfl)

theorem sound_serviceBlock (dr : Bool) (fl : FailSet) (s : ApplyService) :
    Sound (serviceBlock dr false fl s) := by
  intro st st1 tr h
  unfold serviceBlock at h
  split at h
  · cases h
  · split at h
    · exact sound_serviceUpstreamBlock dr fl s st st1 tr h
    · exact sound_serviceUrlBlock dr fl s st st1 tr h

theorem sound_autoServiceSync (dr : Bool) (fl : FailSet) (svcName upName : String)
    (b : RouteBackend) : Sound (autoServiceSync dr false fl svcName upName b) := by
  intro st st1 tr h
  unfold autoServiceSync at h
  split at h
  · split at h
    · obtain ⟨rfl, rfl⟩ := by simpa using h
      exact soundConcl_id (by intro e he; fin_cases he <;> rfl)
    · split at h
      · obtain ⟨rfl, rfl⟩ := by simpa using h
        exact soundConcl_id (by intro e he; fin_cases he <;> rfl)
      · obtain ⟨rfl, rfl⟩ := by simpa using h
        exact soundConcl_id (by intro e he; fin_cases he <;> rfl)
  · split at h
    · cases h
    · split at h
      · rename_i habs
        exact soundConcl_withEvs (by intro e he; fin_cases he; rfl)
          (fun st1' tr' h' => soundConcl_createSvcViaUp_absent habs h') h
      · split at h
        · simp only [Bool.false_eq_true, if_false] at h
          obtain ⟨rfl, rfl⟩ := by simpa using h
          exact soundConcl_id (by intro e he; fin_cases he <;> rfl)
        · obtain ⟨rfl, rfl⟩ := by simpa using h
          exact soundConcl_id (by intro e he; fin_cases he <;> rfl)

theorem sound_routeSync (dr : Bool) (fl : FailSet) (r : ApplyRoute) (name : String) :
    Sound (routeSync dr false fl r name) := by
  intro st st1 tr h
  unfold routeSync at h
  split at h
  · cases h
  · split at h
    · split at h
      · obtain ⟨rfl, rfl⟩ := by simpa using h
        exact soundConcl_id (by intro e he; fin_cases he <;> rfl)
      · split at h
        · obtain ⟨rfl, rfl⟩ := by simpa using h
          exact soundConcl_id (by intro e he; fin_cases he <;> rfl)
        · obtain ⟨rfl, rfl⟩ := by simpa using h
          exact soundConcl_id (by intro e he; fin_cases he <;> rfl)
    · split at h
      · cases h
      · split at h
        · rename_i habs
          refine soundConcl_withEvs (by intro e he; fin_cases he; rfl) ?_ h
          intro st1' tr' h'
          exact soundConcl_createOrUpdateRoute_absent (by exact habs) h'
        · split at h
          · simp only [Bool.false_eq_true, if_false] at h
            obtain ⟨rfl, rfl⟩ := by simpa using h
            exact soundConcl_id (by intro e he; fin_cases he <;> rfl)
          · obtain ⟨rfl, rfl⟩ := by simpa using h
            exact soundConcl_id (by intro e he; fin_cases he <;> rfl)

theorem sound_routeBlock (dr : Bool) (fl : FailSet) (r : ApplyRoute) :
    Sound (routeBlock dr false fl r) := by
  intro st st1 tr h
  unfold routeBlock at h
  split at h
  · split at h
    · cases h
    · exact sound_seq (sound_ensureUpstreamBlock dr false fl (autoUpName r (routeName r)))
        (sound_seq (sound_targetsLoop dr fl (autoUpName r (routeName r)) r.backend.targets)
          (sound_seq
            (sound_autoServiceSync dr fl (autoSvcName r (routeName r))
              (autoUpName r (routeName r)) r.backend)
            (sound_routeSync dr fl { r with service := autoSvcName r (routeName r) }
              (routeName r)))) st st1 tr h
  · exact sound_routeSync dr fl r (routeName r) st st1 tr h

theorem sound_runUpstreams (dr : Bool) (fl : FailSet) (us : List ApplyUpstream) :
    Sound (runUpstreams dr false fl us) := by
  induction us with
  | nil =>
    intro st st1 tr h
    obtain ⟨rfl, rfl⟩ := by simpa [runUpstreams] using h
    exact soundConcl_id (by intro e he; cases he)
  | cons u us ih => exact sound_seq (sound_upstreamEntryBlock dr fl u) ih

theorem sound_runServices (dr : Bool) (fl : FailSet) (ss : List ApplyService) :
    Sound (runServices dr false fl ss) := by
  induction ss with
  | nil =>
    intro st st1 tr h
    obtain ⟨rfl, rfl⟩ := by simpa [runServices] using h
    exact soundConcl_id (by intro e he; cases he)
  | cons s ss ih => exact sound_seq (sound_serviceBlock dr fl s) ih

theorem sound_runRoutes (dr : Bool) (fl : FailSet) (rs : List ApplyRoute) :
    Sound (runRoutes dr false fl rs) := by
  induction rs with
  | nil =>
    intro st st1 tr h
    obtain ⟨rfl, rfl⟩ := by simpa [runRoutes] using h
    exact soundConcl_id (by intro e he; cases he)
  | cons r rs ih => exact sound_seq (sound_routeBlock dr fl r) ih

theorem sound_applyRun (dr : Bool) (fl : FailSet) (spec : ApplySpec) :
    Sound (applyRun dr false fl spec) :=
  sound_seq (sound_runUpstreams dr fl spec.upstreams)
    (sound_seq (sound_runServices dr fl spec.services)
      (sound_runRoutes dr fl spec.routes))

/-- C4: with override disabled, applying the same document twice is
idempotent.  Every mutating call (create or patch) of either successful
executing run targets a resource key absent at that run's start; and every
resource the first run created is present afterwards and receives no
mutating call at all on the second run - it is classified NoChange (no
event beyond the lookup) or Skip (a keyless notice), so a create fires only
for a resource verified absent. -/
theorem c4_idempotence (spec : ApplySpec) (st0 st1 st2 : RemoteState) (tr1 tr2 : List Ev)
    (h1 : applyRun false false noFail spec st0 = .ok (st1, tr1))
    (h2 : applyRun false false noFail spec st1 = .ok (st2, tr2)) :
    (∀ e ∈ tr1, ∀ k, evKey e = some k → present st0 k = false) ∧
    (∀ e ∈ tr2, ∀ k, evKey e = some k → present st1 k = false) ∧
    (∀ e1 ∈ tr1, isCreateEv e1 = true → ∀ k, evKey e1 = some k →
       present st1 k = true ∧ ∀ e2 ∈ tr2, evKey e2 ≠ some k) := by
  obtain ⟨m1, a1, c1⟩ := sound_applyRun false noFail spec st0 st1 tr1 h1
  obtain ⟨m2, a2, c2⟩ := sound_applyRun false noFail spec st1 st2 tr2 h2
  refine ⟨a1, a2, ?_⟩
  intro e1 he1 hcr k hk1
  have hp := c1 e1 he1 hcr k hk1
  refine ⟨hp, ?_⟩
  intro e2 he2 hk2
  have hf := a2 e2 he2 k hk2
  rw [hf] at hp
  cases hp

theorem c4_idempotence_witness :
    ((∀ e ∈ ([Ev.getUpstream "demo-upstream", Ev.getUpstream "demo-upstream",
              Ev.createUpstream "demo-upstream",
              Ev.listTargets "demo-upstream", Ev.listTargets "demo-upstream",
              Ev.addTarget "demo-upstream" "a:80" 100,
              Ev.getService "demo-service", Ev.getService "demo-service",
              Ev.createService { id := "demo-service", name := "demo-service",
                                 protocol := "http", host := "demo-upstream", port := 80 },
              Ev.getRoute "demo", Ev.getService "demo-service", Ev.getRoute "demo",
              Ev.createRoute { name := "demo", paths := ["/demo"], stripPath := some true,
                               serviceName := "demo-service",
                               serviceId := "demo-service" }] : List Ev), ∀ k,
        evKey e = some k →
        present { upstreams := [], services := [], routes := [], targets := [] } k =
          false) ∧
     (∀ e ∈ ([Ev.getUpstream "demo-upstream", Ev.listTargets "demo-upstream",
              Ev.getService "demo-service", Ev.getRoute "demo"] : List Ev), ∀ k,
        evKey e = some k →
        present { upstreams := ["demo-upstream"],
                  services := [{ id := "demo-service", name := "demo-service",
                                 protocol := "http", host := "demo-upstream", port := 80 }],
                  routes := [{ name := "demo", paths := ["/demo"], stripPath := some true,
                               serviceName := "demo-service", serviceId := "demo-service" }],
                  targets := [("demo-upstream", "a:80", 100)] } k = false) ∧
     (∀ e1 ∈ ([Ev.getUpstream "demo-upstream", Ev.getUpstream "demo-upstream",
               Ev.createUpstream "demo-upstream",
               Ev.listTargets "demo-upstream", Ev.listTargets "demo-upstream",
               Ev.addTarget "demo-upstream" "a:80" 100,
               Ev.getService "demo-service", Ev.getService "demo-service",
               Ev.createService { id := "demo-service", name := "demo-service",
                                  protocol := "http", host := "demo-upstream", port := 80 },
               Ev.getRoute "demo", Ev.getService "demo-service", Ev.getRoute "demo",
               Ev.createRoute { name := "demo", paths := ["/demo"],
                                stripPath := some true, serviceName := "demo-service",
                                serviceId := "demo-service" }] : List Ev),
        isCreateEv e1 = true → ∀ k, evKey e1 = some k →
        present { upstreams := ["demo-upstream"],
                  services := [{ id := "demo-service", name := "demo-service",
                                 protocol := "http", host := "demo-upstream", port := 80 }],
                  routes := [{ name := "demo", paths := ["/demo"], stripPath := some true,
                               serviceName := "demo-service", serviceId := "demo-service" }],
                  targets := [("demo-upstream", "a:80", 100)] } k = true ∧
        ∀ e2 ∈ ([Ev.getUpstream "demo-upstream", Ev.listTargets "demo-upstream",
                 Ev.getService "demo-service", Ev.getRoute "demo"] : List Ev),
          evKey e2 ≠ some k)) :=
  c4_idempotence
    { routes := [{ name := "demo", paths := ["/demo"],
                   backend := { targets := [{ target := "a:80" }] } }] }
    { upstreams := [], services := [], routes := [], targets := [] }
    { upstreams := ["demo-upstream"],
      services := [{ id := "demo-service", name := "demo-service",
                     protocol := "http", host := "demo-upstream", port := 80 }],
      routes := [{ name := "demo", paths := ["/demo"], stripPath := some true,
                   serviceName := "demo-service", serviceId := "demo-service" }],
      targets := [("demo-upstream", "a:80", 100)] }
    { upstreams := ["demo-upstream"],
      services := [{ id := "demo-service", name := "demo-service",
                     protocol := "http", host := "demo-upstream", port := 80 }],
      routes := [{ name := "demo", paths := ["/demo"], stripPath := some true,
                   serviceName := "demo-service", serviceId := "demo-service" }],
      targets := [("demo-upstream", "a:80", 100)] }
    [Ev.getUpstream "demo-upstream", Ev.getUpstream "demo-upstream",
     Ev.createUpstream "demo-upstream",
     Ev.listTargets "demo-upstream", Ev.listTargets "demo-upstream",
     Ev.addTarget "demo-upstream" "a:80" 100,
     Ev.getService "demo-service", Ev.getService "demo-service",
     Ev.createService { id := "demo-service", name := "demo-service",
                        protocol := "http", host := "demo-upstream", port := 80 },
     Ev.getRoute "demo", Ev.getService "demo-service", Ev.getRoute "demo",
     Ev.createRoute { name := "demo", paths := ["/demo"], stripPath := some true,
                      serviceName := "demo-service", serviceId := "demo-service" }]
    [Ev.getUpstream "demo-upstream", Ev.listTargets "demo-upstream",
     Ev.getService "demo-service", Ev.getRoute "demo"]
    rfl rfl
